import Mathlib

/-!
Verification development for the MLS replication worker (mta-mls-worker).

The definitions below are a shallow embedding of the worker's TypeScript
source.  Machine time (`Date.now()`) is passed explicitly as a `now : Nat`
parameter (epoch milliseconds), JavaScript `Date` values are modelled as
`Option Nat` (`none` is the JS Invalid Date), SQL `NULL` columns are
`Option` fields, and database tables are association lists of row
structures.  Network and object-store effects are passed in as explicit
oracle arguments.  Each definition cites the source file and lines it
embeds.
-/

/-- One second in milliseconds (src/src/lib/rate-limiter.ts line 17). -/
def ONE_SECOND : Nat := 1000

/-- One hour in milliseconds (src/src/lib/rate-limiter.ts line 18). -/
def ONE_HOUR : Nat := 3600000

/-- One day in milliseconds (src/src/lib/rate-limiter.ts line 19). -/
def ONE_DAY : Nat := 86400000

/-- One gibibyte, `1024 * 1024 * 1024` (src/src/lib/rate-limiter.ts line 21). -/
def GB : Nat := 1024 * 1024 * 1024

/-- Default media bandwidth hard cap: 4 GiB (spec section 4.A; env default). -/
def defaultHardCap : Nat := 4 * GB

/-- Default media bandwidth soft cap: 3.5 GiB, i.e. `3.5 * GB` exactly. -/
def defaultSoftCap : Nat := 3758096384

/-- A recorded media download event: timestamp (epoch ms) and byte count
(src/src/lib/rate-limiter.ts lines 37-40, the `mediaDownloads` entries). -/
structure MediaEntry where
  timestamp : Nat
  bytes : Nat
  deriving Repr, DecidableEq

/-- Start of the current UTC clock hour, `now - (now % ONE_HOUR)`
(src/src/lib/rate-limiter.ts lines 130, 227). -/
def startOfHour (now : Nat) : Nat := now - now % ONE_HOUR

/-- Function `pruneMediaDownloads` (src/src/lib/rate-limiter.ts lines 223-228): drop
every entry from before the current clock hour. -/
def pruneMediaDownloads (now : Nat) (entries : List MediaEntry) : List MediaEntry :=
  entries.filter (fun e => startOfHour now ≤ e.timestamp)

/-- The byte sum over the current clock hour, as computed by
`checkMediaDownload` (src/src/lib/rate-limiter.ts lines 133-135):
filter `timestamp >= startOfHour` then sum the `bytes` fields. -/
def currentHourBytes (now : Nat) (entries : List MediaEntry) : Nat :=
  (entries.filter (fun e => startOfHour now ≤ e.timestamp)).foldl
    (fun s e => s + e.bytes) 0

/-- Function `checkMediaDownload` (src/src/lib/rate-limiter.ts lines 127-147).
Prunes the series, sums the bytes of the current clock hour, and returns
the wait in ms: time-to-next-hour + 100 at the hard cap, 10 s at the soft
cap, 0 otherwise.  `now` stands for `Date.now()`; the caps come from the
environment (`getMediaLimits`, lines 29-35). -/
def checkMediaDownload (now hardCap softCap : Nat) (entries : List MediaEntry) : Nat :=
  let pruned := pruneMediaDownloads now entries
  let cur := currentHourBytes now pruned
  if hardCap ≤ cur then startOfHour now + ONE_HOUR - now + 100
  else if softCap ≤ cur then 10000
  else 0

/-- The rolling 60-minute byte sum named by the claim (and implemented by the
divergent rate limiter in src/unnamed/part_005, which filters with
`timestamp > now - ONE_HOUR`): the sum of bytes whose timestamps lie within
the preceding 60 minutes of `now`. -/
def rollingHourBytes (now : Nat) (entries : List MediaEntry) : Nat :=
  (entries.filter (fun e => now - ONE_HOUR < e.timestamp)).foldl
    (fun s e => s + e.bytes) 0

/-- A JavaScript `Date` value: `some ms` is a valid instant (epoch
milliseconds, UTC), `none` is the JS Invalid Date. -/
abbrev JSDate := Option Nat

/-- Decimal value of an ASCII digit character. -/
def digitVal (c : Char) : Option Nat :=
  if c.isDigit then some (c.toNat - 48) else none

/-- A two-digit decimal field. -/
def twoDigits (a b : Char) : Option Nat := do
  pure (10 * (← digitVal a) + (← digitVal b))

/-- A three-digit decimal field. -/
def threeDigits (a b c : Char) : Option Nat := do
  pure (100 * (← digitVal a) + 10 * (← digitVal b) + (← digitVal c))

/-- A four-digit decimal field. -/
def fourDigits (a b c d : Char) : Option Nat := do
  pure (1000 * (← digitVal a) + 100 * (← digitVal b) + 10 * (← digitVal c) + (← digitVal d))

/-- Gregorian leap-year rule. -/
def isLeap (y : Nat) : Bool :=
  (y % 4 == 0 && y % 100 != 0) || y % 400 == 0

/-- Days in month `m` (1-12) of year `y`. -/
def daysInMonth (y m : Nat) : Nat :=
  if m = 2 then (if isLeap y then 29 else 28)
  else if m = 4 ∨ m = 6 ∨ m = 9 ∨ m = 11 then 30
  else 31

/-- Days of year `y` before the start of month `m`. -/
def daysBeforeMonth (y m : Nat) : Nat :=
  ((List.range (m - 1)).map (fun i => daysInMonth y (i + 1))).sum

/-- Days from 1970-01-01 to the civil date `y-m-d` (for `y ≥ 1970`). -/
def daysFromCivil (y m d : Nat) : Nat :=
  ((List.range (y - 1970)).map (fun i => if isLeap (1970 + i) then 366 else 365)).sum
    + daysBeforeMonth y m + (d - 1)

/-- Epoch milliseconds of a validated UTC civil timestamp; `none` when a
field is out of range. -/
def isoToMs (y m d h mi s ms : Nat) : Option Nat :=
  if 1970 ≤ y ∧ 1 ≤ m ∧ m ≤ 12 ∧ 1 ≤ d ∧ d ≤ daysInMonth y m ∧
      h ≤ 23 ∧ mi ≤ 59 ∧ s ≤ 59 then
    some ((((daysFromCivil y m d * 24 + h) * 60 + mi) * 60 + s) * 1000 + ms)
  else none

/-- Models JavaScript `new Date(string)` on the ISO-8601 UTC profile the
feed emits (`YYYY-MM-DDTHH:MM:SSZ` or `YYYY-MM-DDTHH:MM:SS.mmmZ`); every
other string is treated as unparseable and yields the JS Invalid Date
(`none`). -/
def parseIsoDate (str : String) : JSDate :=
  match str.data with
  | [y1, y2, y3, y4, '-', m1, m2, '-', d1, d2, 'T',
     h1, h2, ':', n1, n2, ':', s1, s2, 'Z'] => do
      isoToMs (← fourDigits y1 y2 y3 y4) (← twoDigits m1 m2) (← twoDigits d1 d2)
        (← twoDigits h1 h2) (← twoDigits n1 n2) (← twoDigits s1 s2) 0
  | [y1, y2, y3, y4, '-', m1, m2, '-', d1, d2, 'T',
     h1, h2, ':', n1, n2, ':', s1, s2, '.', f1, f2, f3, 'Z'] => do
      isoToMs (← fourDigits y1 y2 y3 y4) (← twoDigits m1 m2) (← twoDigits d1 d2)
        (← twoDigits h1 h2) (← twoDigits n1 n2) (← twoDigits s1 s2)
        (← threeDigits f1 f2 f3)
  | _ => none

/-- Models JS `new Date(x)` where `x : string | undefined`:
`new Date(undefined)` is Invalid Date. -/
def jsDateOf (x : Option String) : JSDate :=
  match x with
  | some s => parseIsoDate s
  | none => none

/-- JS `>` on two `Date` values (numeric comparison; any NaN makes it false). -/
def jsGt : JSDate → JSDate → Bool
  | some a, some b => b < a
  | _, _ => false

/-- Left-pad a decimal rendering with zeros to `width`. -/
def padNum (width n : Nat) : String :=
  let s := toString n
  String.mk (List.replicate (width - s.length) '0') ++ s

/-- Length in days of year `y`. -/
def yearLen (y : Nat) : Nat := if isLeap y then 366 else 365

/-- Fuelled descent from 1970: year of a day count and the day-of-year rest. -/
def yearFromDays : Nat → Nat → Nat → Nat × Nat
  | 0, y, doy => (y, doy)
  | fuel + 1, y, doy =>
    if doy < yearLen y then (y, doy) else yearFromDays fuel (y + 1) (doy - yearLen y)

/-- Fuelled descent over months: month of a day-of-year and day-of-month rest. -/
def monthFromDays : Nat → Nat → Nat → Nat → Nat × Nat
  | 0, _, m, doy => (m, doy)
  | fuel + 1, y, m, doy =>
    if doy < daysInMonth y m then (m, doy)
    else monthFromDays fuel y (m + 1) (doy - daysInMonth y m)

/-- Models JS `Date.prototype.toISOString` on a valid epoch-ms value. -/
def toIsoString (ms : Nat) : String :=
  let totalSec := ms / 1000
  let days := totalSec / 86400
  let rem := totalSec % 86400
  let yd := yearFromDays (days / 365 + 1) 1970 days
  let md := monthFromDays 12 yd.1 1 yd.2
  padNum 4 yd.1 ++ "-" ++ padNum 2 md.1 ++ "-" ++ padNum 2 (md.2 + 1) ++ "T" ++
    padNum 2 (rem / 3600) ++ ":" ++ padNum 2 (rem % 3600 / 60) ++ ":" ++
    padNum 2 (rem % 60) ++ "." ++ padNum 3 (ms % 1000) ++ "Z"

/-- The ASCII single-quote character (code point 39). -/
def squoteChar : Char := Char.ofNat 39

/-- The single-quote as a one-character string. -/
def squote : String := String.singleton squoteChar

/-- Uppercase hex digit of a value below 16. -/
def hexDigit (n : Nat) : Char :=
  if n < 10 then Char.ofNat (48 + n) else Char.ofNat (55 + n)

/-- Characters `encodeURIComponent` leaves unescaped (unreserved marks). -/
def uriUnreserved (c : Char) : Bool :=
  c.isAlphanum || (['-', '_', '.', '!', '~', '*', squoteChar, '(', ')']).contains c

/-- Percent-encode one character as the `%HH` escapes of its UTF-8 bytes. -/
def percentEncodeChar (c : Char) : String :=
  String.mk ((String.singleton c).toUTF8.toList.foldr
    (fun b acc => '%' :: hexDigit (b.toNat / 16) :: hexDigit (b.toNat % 16) :: acc) [])

/-- Models JavaScript `encodeURIComponent`. -/
def encodeURIComponent (s : String) : String :=
  String.join (s.data.map
    (fun c => if uriUnreserved c then String.singleton c else percentEncodeChar c))

/-- The feed resource kinds (src/src/api/mlsgrid-client.ts line 7). -/
inductive ResourceType
  | Property
  | Member
  | Office
  | OpenHouse
  | Lookup
  deriving DecidableEq, Repr

/-- The path segment of a resource. -/
def resourceName : ResourceType → String
  | .Property => "Property"
  | .Member => "Member"
  | .Office => "Office"
  | .OpenHouse => "OpenHouse"
  | .Lookup => "Lookup"

/-- Function `getExpandParam` (src/src/api/mlsgrid-client.ts lines 302-312). -/
def getExpandParam : ResourceType → Option String
  | .Property => some "Media,Rooms,UnitTypes"
  | .Member => some "Media"
  | .Office => some "Media"
  | _ => none

/-- The `$top` page size chosen by the URL builders
(src/src/api/mlsgrid-client.ts lines 58, 84): 1000 when an `$expand`
parameter is emitted, 5000 otherwise. -/
def topFor (resource : ResourceType) : Nat :=
  if (getExpandParam resource).isSome then 1000 else 5000

/-- The `filter` local of `buildReplicationUrl`
(src/src/api/mlsgrid-client.ts lines 80-82):
`OriginatingSystemName eq '<vendor>' and ModificationTimestamp <op> <iso>`
where `<op>` is `ge` when `useGe` and `gt` otherwise and `<iso>` is
`hwm.toISOString()`.  Note the timestamp is not quoted. -/
def buildReplicationFilter (originatingSystem : String) (hwm : Nat) (useGe : Bool) : String :=
  "OriginatingSystemName eq " ++ squote ++ originatingSystem ++ squote ++
    " and ModificationTimestamp " ++ (if useGe then "ge" else "gt") ++ " " ++
    toIsoString hwm

/-- Function `buildReplicationUrl` (src/src/api/mlsgrid-client.ts lines 71-91):
base, resource path, URI-encoded `$filter`, `$top`, and `$expand` when the
resource has one. -/
def buildReplicationUrl (base : String) (resource : ResourceType)
    (originatingSystem : String) (hwm : Nat) (useGe : Bool) : String :=
  let url := base ++ "/" ++ resourceName resource ++ "?$filter=" ++
    encodeURIComponent (buildReplicationFilter originatingSystem hwm useGe) ++
    "&$top=" ++ toString (topFor resource)
  match getExpandParam resource with
  | some e => url ++ "&$expand=" ++ e
  | none => url

/-- Tests that `pat` is a leading piece of `cs`. -/
def leadsWith : List Char → List Char → Bool
  | [], _ => true
  | _ :: _, [] => false
  | p :: ps, c :: cs => p == c && leadsWith ps cs

/-- Tests that `pat` occurs somewhere in `cs`. -/
def containsSubAux (pat : List Char) : List Char → Bool
  | [] => leadsWith pat []
  | c :: cs => leadsWith pat (c :: cs) || containsSubAux pat cs

/-- Substring occurrence on strings (decidable by evaluation). -/
def containsSub (s pat : String) : Bool := containsSubAux pat.data s.data

/-- True when the list begins with a decimal digit (the `\d` that the regex
requires after `expires=`). -/
def digitStarts : List Char → Bool
  | c :: _ => c.isDigit
  | [] => false

/-- The maximal leading digit run read as a base-10 number (the regex
capture `(\d+)` handed to `parseInt(..., 10)`). -/
def digitRunVal (cs : List Char) : Nat :=
  (cs.takeWhile Char.isDigit).foldl (fun a c => a * 10 + (c.toNat - 48)) 0

/-- Leftmost match of the regex `[?&]expires=(\d+)` over a character list:
a `?` or `&` immediately followed by the literal `expires=` and at least
one digit. -/
def parseUrlExpiryAux : List Char → Option Nat
  | [] => none
  | c :: rest =>
    if (c == '?' || c == '&') && leadsWith "expires=".data rest &&
        digitStarts (rest.drop 8) then
      some (digitRunVal (rest.drop 8))
    else parseUrlExpiryAux rest

/-- Function `parseUrlExpiry` (src/unnamed/part_009 lines 627-630):
`url.match(/[?&]expires=(\d+)/)`, returning the captured digits as a
number, or `none` when the pattern occurs nowhere in the string. -/
def parseUrlExpiry (url : String) : Option Nat :=
  parseUrlExpiryAux url.data

/-- Function `isMediaUrlExpired` (src/unnamed/part_009 lines 635-639): true iff the
matched `expires=` value is ≤ now + buffer, in seconds; a URL with no match
is never expired.  `nowSec` models `Math.floor(Date.now() / 1000)`; every
call site uses the default buffer of 60 s. -/
def isMediaUrlExpired (url : String) (nowSec bufferSec : Nat) : Bool :=
  match parseUrlExpiry url with
  | none => false
  | some expiresAt => expiresAt ≤ nowSec + bufferSec

/-- Claim-side reading of `carries an expires= query parameter`: the URL's
query component (everything after the first `?`), split at `&`, has a part
that begins with `expires=`. -/
def hasExpiresQueryParam (url : String) : Bool :=
  match url.data.dropWhile (fun c => c != '?') with
  | [] => false
  | _ :: query => (query.splitOn '&').any (fun p => leadsWith "expires=".data p)

/-- The condition of the regex `[?&]expires=(\d+)` tested at one position. -/
def expiresTokenAt : List Char → Bool
  | c :: rest =>
    (c == '?' || c == '&') && leadsWith "expires=".data rest &&
      digitStarts (rest.drop 8)
  | [] => false

/-- An `expires=` token (in the regex sense) occurs anywhere in the string. -/
def hasExpiresToken (url : String) : Bool :=
  url.data.tails.any expiresTokenAt

/-- Media row status (src/src/db/schema/media.ts line 27; spec section 3). -/
inductive MediaStatus
  | pending_download
  | complete
  | failed
  | expired
  deriving DecidableEq, Repr

/-- Projection of a `media` table row (src/src/db/schema/media.ts lines
11-37) onto the columns read or written by the embedded operations.
`r2ObjectKey` is NOT NULL in the schema (it may still be empty);
`publicUrl`, `fileSizeBytes`, `contentType`, `mediaUrlSource` are nullable.
`mediaModTs` holds a valid stored instant or SQL NULL.  Audit columns
(`createdAt`, `updatedAt`) are not modelled. -/
structure MediaRow where
  mediaKey : String
  listingKey : String
  resourceType : String
  mediaUrlSource : Option String
  r2ObjectKey : String
  publicUrl : Option String
  fileSizeBytes : Option Nat
  contentType : Option String
  status : MediaStatus
  retryCount : Nat
  mediaModTs : Option Nat
  mediaOrder : Option Nat
  mediaCategory : Option String
  deriving Repr, DecidableEq

/-- JS truthiness of a string: only the empty string is falsy. -/
def truthyStr (s : String) : Bool := s != ""

/-- JS truthiness of a nullable string column. -/
def truthyOptStr : Option String → Bool
  | some s => truthyStr s
  | none => false

/-- Models JS `String.prototype.toLowerCase` on the ASCII content-type
strings the code compares against: each character is lowercased. -/
def strToLower (s : String) : String := String.mk (s.data.map Char.toLower)

/-- Function `getExtensionFromContentType` (src/unnamed/part_012, the
r2-client module): the lowercased content type is looked up in the
extension map — `image/jpeg` and `image/jpg` give `jpg`, `image/png` gives
`png`, `image/gif` gives `gif`, `image/webp` gives `webp`, `image/svg+xml`
gives `svg`, `image/bmp` gives `bmp`, `image/tiff` gives `tiff` and
`application/pdf` gives `pdf` — and any unmapped content type falls back
to `jpg` (the source's `?? 'jpg'`). -/
def getExtensionFromContentType (contentType : String) : String :=
  (List.lookup (strToLower contentType)
    [("image/jpeg", "jpg"), ("image/jpg", "jpg"), ("image/png", "png"),
     ("image/gif", "gif"), ("image/webp", "webp"), ("image/svg+xml", "svg"),
     ("image/bmp", "bmp"), ("image/tiff", "tiff"),
     ("application/pdf", "pdf")]).getD "jpg"

/-- Function `buildR2ObjectKey` (src/unnamed/part_012, the r2-client
module): the deterministic object key
`{resourceType}/{parentKey}/{mediaKey}.{ext}` with the extension derived
from the content type by `getExtensionFromContentType`. -/
def buildR2ObjectKey (resourceType parentKey mediaKey contentType : String) : String :=
  resourceType ++ "/" ++ parentKey ++ "/" ++ mediaKey ++ "." ++
    getExtensionFromContentType contentType

/-- Function `buildPublicUrl` (src/unnamed/part_012, the r2-client
module): forms `https://{R2_PUBLIC_DOMAIN}/{r2ObjectKey}`; the source
reads the public domain from the environment via `getEnv()`, passed here
as the explicit `publicDomain` argument. -/
def buildPublicUrl (publicDomain key : String) : String :=
  "https://" ++ publicDomain ++ "/" ++ key

/-- The media completeness invariant (spec sections 3 and 8): a row with
status `complete` has a non-empty object-store key, a non-empty public URL
and a positive file size; rows in any other status are unconstrained. -/
def mediaRowOk (r : MediaRow) : Bool :=
  match r.status with
  | .complete =>
    truthyStr r.r2ObjectKey && truthyOptStr r.publicUrl &&
      (match r.fileSizeBytes with
       | some n => decide (0 < n)
       | none => false)
  | _ => true

/-- The invariant over a whole media table. -/
def mediaInvariant (rows : List MediaRow) : Bool := rows.all mediaRowOk

/-- The fast path of `recoverFailedMedia` (src/unnamed/part_009 lines
100-141): rows with status `failed` or `expired` whose `r2ObjectKey` and
`publicUrl` are truthy are flipped to `complete` without re-downloading.
The select (lines 106-116) does not read `fileSizeBytes` and the filter
(line 127) does not test it.  The result is the table after the per-row
`UPDATE ... SET status = 'complete'` statements (lines 135-141). -/
def recoverFailedMediaFastPath (rows : List MediaRow) : List MediaRow :=
  rows.map (fun r =>
    if (r.status = MediaStatus.failed ∨ r.status = MediaStatus.expired) ∧
        truthyStr r.r2ObjectKey = true ∧ truthyOptStr r.publicUrl = true then
      { r with status := MediaStatus.complete }
    else r)

/-- Constant `MAX_RETRIES` of the background downloader
(src/src/pipeline/media-downloader.ts line 10). -/
def MAX_RETRIES : Nat := 5

/-- Outcome of a `downloadMedia` call as observed by the downloader's catch
blocks: success with byte count and content type, or an `MlsGridApiError`
carrying an HTTP status, or any other error
(src/src/api/mlsgrid-client.ts lines 261-298). -/
inductive DLOutcome
  | success (bytes : Nat) (contentType : String)
  | httpError (statusCode : Nat)
  | otherError
  deriving Repr, DecidableEq

/-- Update the row bearing the given media key (`WHERE media_key = ...`). -/
def updateMediaRow (rows : List MediaRow) (key : String)
    (f : MediaRow → MediaRow) : List MediaRow :=
  rows.map (fun r => if r.mediaKey = key then f r else r)

/-- The error tail of `downloadOne`
(src/src/pipeline/media-downloader.ts lines 229-298): 400/403 marks the row
`expired` (no retry); 429 leaves the row `pending_download` (only
`updatedAt` is touched) and pauses the loop; otherwise the retry count is
bumped and the row is marked `failed` once it reaches `MAX_RETRIES`. -/
def downloadOneErr (rows : List MediaRow) (row : MediaRow)
    (is429 isExpired : Bool) : List MediaRow :=
  if isExpired then
    updateMediaRow rows row.mediaKey (fun r => { r with status := MediaStatus.expired })
  else if is429 then
    rows
  else if MAX_RETRIES ≤ row.retryCount + 1 then
    updateMediaRow rows row.mediaKey
      (fun r => { r with status := MediaStatus.failed, retryCount := row.retryCount + 1 })
  else
    updateMediaRow rows row.mediaKey
      (fun r => { r with retryCount := row.retryCount + 1 })

/-- Function `downloadOne` (src/src/pipeline/media-downloader.ts lines 153-298).
A row without a source URL is marked `failed` (lines 172-179).  On download
success the row becomes `complete` with the deterministic object key, the
public URL and the downloaded byte count (lines 181-213).  Errors go
through the catch tail.  The object-store upload and the audit insert are
outside the media table and not modelled here. -/
def downloadOne (publicDomain : String) (row : MediaRow) (outcome : DLOutcome)
    (rows : List MediaRow) : List MediaRow :=
  match row.mediaUrlSource with
  | none =>
    updateMediaRow rows row.mediaKey (fun r => { r with status := MediaStatus.failed })
  | some _ =>
    match outcome with
    | .success bytes ct =>
      let key := buildR2ObjectKey row.resourceType row.listingKey row.mediaKey ct
      updateMediaRow rows row.mediaKey (fun r =>
        { r with
          status := MediaStatus.complete
          r2ObjectKey := key
          publicUrl := some (buildPublicUrl publicDomain key)
          fileSizeBytes := some bytes
          contentType := some ct })
    | .httpError status =>
      downloadOneErr rows row (status == 429) (status == 400 || status == 403)
    | .otherError =>
      downloadOneErr rows row false false

/-- A `failed` media row whose object key and public URL are set but whose
recorded file size is 0 (e.g. an upload recorded before its size, or a
zero-byte body): the fast-path recovery input of the C3 counterexample. -/
def c3Row : MediaRow :=
  { mediaKey := "M1"
    listingKey := "L1"
    resourceType := "Property"
    mediaUrlSource := none
    r2ObjectKey := "Property/L1/M1.jpg"
    publicUrl := some "https://media.example.com/Property/L1/M1.jpg"
    fileSizeBytes := some 0
    contentType := some "image/jpeg"
    status := MediaStatus.failed
    retryCount := 0
    mediaModTs := none
    mediaOrder := some 0
    mediaCategory := none }

/-- The C3 row with a positive recorded size: recovery may safely flip it. -/
def c3RowGood : MediaRow := { c3Row with fileSizeBytes := some 5 }

/-- Projection of a feed media sub-document (`MlsGridMediaRecord`,
src/unnamed/part_003 lines 152-159). -/
structure MlsMediaRec where
  MediaKey : Option String
  MediaURL : Option String
  MediaModificationTimestamp : Option String
  Order : Option Nat
  MediaCategory : Option String
  deriving Repr, DecidableEq

/-- Projection of a feed room sub-document (`MlsGridRoomRecord`,
src/unnamed/part_003 lines 161-167). -/
structure MlsRoomRec where
  RoomKey : Option String
  RoomType : Option String
  deriving Repr, DecidableEq

/-- Projection of a feed unit-type sub-document (`MlsGridUnitTypeRecord`,
src/unnamed/part_003 lines 169-176). -/
structure MlsUnitTypeRec where
  UnitTypeKey : Option String
  UnitTypeType : Option String
  deriving Repr, DecidableEq

/-- Projection of a feed property record (`MlsGridPropertyRecord`,
src/unnamed/part_003 lines 33-150) onto the attributes read by the
embedded pipeline.  The remaining scalar attributes are copied pointwise
by the mapper and are not read by any embedded operation. -/
structure MlsProp where
  ListingKey : Option String
  ListingId : Option String
  OriginatingSystemName : Option String
  ListPrice : Option Nat
  StandardStatus : Option String
  PublicRemarks : Option String
  LivingArea : Option Nat
  PhotosCount : Option Nat
  MlgCanView : Option Bool
  ModificationTimestamp : Option String
  PhotosChangeTimestamp : Option String
  MajorChangeType : Option String
  Media : List MlsMediaRec
  Rooms : List MlsRoomRec
  UnitTypes : List MlsUnitTypeRec
  deriving Repr, DecidableEq

/-- The all-`none` feed record, for building concrete test records. -/
def emptyMlsProp : MlsProp :=
  { ListingKey := none
    ListingId := none
    OriginatingSystemName := none
    ListPrice := none
    StandardStatus := none
    PublicRemarks := none
    LivingArea := none
    PhotosCount := none
    MlgCanView := none
    ModificationTimestamp := none
    PhotosChangeTimestamp := none
    MajorChangeType := none
    Media := []
    Rooms := []
    UnitTypes := [] }

/-- A nullable timestamp column value from an optional feed string, as the
mapper computes it: `x ? new Date(x) : null` (an empty string is falsy).
A string outside the ISO profile would be a stored Invalid Date; it is
conflated with NULL here. -/
def jsDateColOf (x : Option String) : Option Nat :=
  match x with
  | some s => if truthyStr s then parseIsoDate s else none
  | none => none

/-- Projection of a `properties` table row
(src/src/db/schema/properties.ts via `NewProperty`) onto the columns read
or written by the embedded pipeline: the soft-delete path, the diff step
and the photos-changed test.  The remaining ~90 scalar columns are not
read by any embedded operation. -/
structure PropertyRow where
  listingKey : String
  listingId : Option String
  originatingSystem : String
  listPrice : Option String
  standardStatus : Option String
  publicRemarks : Option String
  livingArea : Option String
  photosCount : Option Nat
  mlgCanView : Bool
  deletedAt : Option Nat
  modificationTs : JSDate
  photosChangeTs : Option Nat
  createdAt : Option Nat
  updatedAt : Option Nat
  deriving Repr, DecidableEq

/-- Function `transformProperty` (src/unnamed/part_003 lines 181-327), projected
onto the modelled columns.  `listingKey` uses the TS non-null assertion
`raw.ListingKey!` (callers guard on a truthy key first); numbers become
decimal strings via `toString`; `modificationTs` is
`new Date(raw.ModificationTimestamp!)` with NO validation (line 280) — a
malformed or absent timestamp yields the JS Invalid Date (`none`);
`mlgCanView` defaults to true; `updatedAt := new Date()`.  The mapper does
not set `createdAt` or `deletedAt`. -/
def transformProperty (raw : MlsProp) (now : Nat) : PropertyRow :=
  { listingKey := raw.ListingKey.getD ""
    listingId := raw.ListingId
    originatingSystem := raw.OriginatingSystemName.getD "actris"
    listPrice := raw.ListPrice.map toString
    standardStatus := raw.StandardStatus
    publicRemarks := raw.PublicRemarks
    livingArea := raw.LivingArea.map toString
    photosCount := raw.PhotosCount
    mlgCanView := raw.MlgCanView.getD true
    deletedAt := none
    modificationTs := jsDateOf raw.ModificationTimestamp
    photosChangeTs := jsDateColOf raw.PhotosChangeTimestamp
    createdAt := none
    updatedAt := some now }

/-- A `rooms` table row projection (roomKey, parent, type). -/
structure RoomRow where
  roomKey : String
  listingKey : String
  roomType : Option String
  deriving Repr, DecidableEq

/-- A `unit_types` table row projection. -/
structure UnitTypeRow where
  unitTypeKey : String
  listingKey : String
  unitTypeType : Option String
  deriving Repr, DecidableEq

/-- Function `transformRooms` (src/unnamed/part_003 lines 332-349), projected:
one row per input room (`RoomKey!`), owned by the listing. -/
def transformRooms (listingKey : String) (rawRooms : List MlsRoomRec) : List RoomRow :=
  rawRooms.map (fun room =>
    { roomKey := room.RoomKey.getD "", listingKey := listingKey, roomType := room.RoomType })

/-- Function `transformUnitTypes` (src/unnamed/part_003 lines 354-368), projected. -/
def transformUnitTypes (listingKey : String) (rawUnitTypes : List MlsUnitTypeRec) :
    List UnitTypeRow :=
  rawUnitTypes.map (fun ut =>
    { unitTypeKey := ut.UnitTypeKey.getD "", listingKey := listingKey,
      unitTypeType := ut.UnitTypeType })

/-- Function `transformMediaRecords` (src/unnamed/part_003 lines 374-403): one
`pending_download` media row per input sub-document; the object key is
computed with the default content type `image/jpeg`; `mediaOrder` defaults
to the input array position. -/
def transformMediaRecords (listingKey resourceType : String)
    (rawMedia : List MlsMediaRec) : List MediaRow :=
  rawMedia.enum.map (fun p =>
    let idx := p.1
    let m := p.2
    let mediaKey := m.MediaKey.getD ""
    { mediaKey := mediaKey
      listingKey := listingKey
      resourceType := resourceType
      mediaUrlSource := m.MediaURL
      r2ObjectKey := buildR2ObjectKey resourceType listingKey mediaKey "image/jpeg"
      publicUrl := none
      fileSizeBytes := none
      contentType := none
      status := MediaStatus.pending_download
      retryCount := 0
      mediaModTs := jsDateColOf m.MediaModificationTimestamp
      mediaOrder := some (m.Order.getD idx)
      mediaCategory := m.MediaCategory })

/-- A `status_history` row (src/src/db/schema/history.ts). -/
structure StatusHistoryRow where
  listingKey : String
  oldStatus : Option String
  newStatus : String
  modificationTs : JSDate
  deriving Repr, DecidableEq

/-- A `price_history` row (src/src/db/schema/history.ts). -/
structure PriceHistoryRow where
  listingKey : String
  oldPrice : Option String
  newPrice : String
  changeType : String
  modificationTs : JSDate
  deriving Repr, DecidableEq

/-- A `property_change_log` row (src/src/db/schema/history.ts). -/
structure ChangeLogRow where
  listingKey : String
  fieldName : String
  oldValue : Option String
  newValue : String
  modificationTs : JSDate
  deriving Repr, DecidableEq

/-- A `raw_responses` row projection: the stored raw JSON (the record with
its expanded sub-resources stripped) is not read by any embedded operation
and is omitted. -/
structure RawResponseRow where
  listingKey : String
  originatingSystem : String
  receivedAt : Nat
  deriving Repr, DecidableEq

/-- The modelled database and object-store state touched by the listing
pipeline. -/
structure WorkerDb where
  properties : List PropertyRow
  mediaRows : List MediaRow
  rooms : List RoomRow
  unitTypes : List UnitTypeRow
  rawResponses : List RawResponseRow
  priceHistory : List PriceHistoryRow
  statusHistory : List StatusHistoryRow
  propertyChangeLog : List ChangeLogRow
  r2Objects : List String
  deriving Repr, DecidableEq

/-- The empty state. -/
def emptyDb : WorkerDb :=
  { properties := []
    mediaRows := []
    rooms := []
    unitTypes := []
    rawResponses := []
    priceHistory := []
    statusHistory := []
    propertyChangeLog := []
    r2Objects := [] }

/-- Primary-key lookup on the listings table (`SELECT ... WHERE
listing_key = ... LIMIT 1`). -/
def findProperty (db : WorkerDb) (listingKey : String) : Option PropertyRow :=
  db.properties.find? (fun p => p.listingKey == listingKey)

/-- Function `handleSoftDelete` (src/src/pipeline/property-processor.ts lines
527-596; the first copy, lines 159-228, is identical).  If no row bears
the key, nothing happens.  Otherwise the row is soft-deleted
(`mlgCanView := false`, `deletedAt`/`updatedAt` stamped, `modificationTs`
taken from the record), one `statusHistory` row with
`newStatus = 'Deleted/Removed'` is appended when not in initial-import
mode, and then the listing's media is DELETED: the object-store objects
are removed (`batchDeleteFromR2`; `r2Ok = false` models the caught
deletion failure, after which the rows are still deleted) and the media
rows are deleted.  The alert hook is a no-op. -/
def handleSoftDelete (listingKey : String) (raw : MlsProp)
    (isInitialImport : Bool) (now : Nat) (r2Ok : Bool) (db : WorkerDb) : WorkerDb :=
  match findProperty db listingKey with
  | none => db
  | some existing =>
    let props := db.properties.map (fun p =>
      if p.listingKey == listingKey then
        { p with
          mlgCanView := false
          deletedAt := some now
          updatedAt := some now
          modificationTs := jsDateOf raw.ModificationTimestamp }
      else p)
    let hist :=
      if isInitialImport then db.statusHistory
      else db.statusHistory ++
        [{ listingKey := listingKey
           oldStatus := existing.standardStatus
           newStatus := "Deleted/Removed"
           modificationTs := jsDateOf raw.ModificationTimestamp }]
    let listingMedia := db.mediaRows.filter (fun m => m.listingKey == listingKey)
    let r2 :=
      if listingMedia.isEmpty then db.r2Objects
      else if r2Ok then
        db.r2Objects.filter
          (fun o => !((listingMedia.map MediaRow.r2ObjectKey).contains o))
      else db.r2Objects
    let mrows :=
      if listingMedia.isEmpty then db.mediaRows
      else db.mediaRows.filter (fun m => m.listingKey != listingKey)
    { db with
      properties := props
      statusHistory := hist
      r2Objects := r2
      mediaRows := mrows }

/-- The `changeType` inferred from the price delta
(src/src/pipeline/property-processor.ts lines 614-617):
`Price Increase` only when both price strings are truthy and the new value
exceeds the old numerically (`parseFloat`, modelled on the integer decimal
strings the mapper produces); otherwise `Price Decrease`. -/
def priceChangeType (oldPrice : Option String) (newPrice : String) : String :=
  let inc :=
    match oldPrice with
    | some op =>
      truthyStr op && truthyStr newPrice &&
        (match op.toNat?, newPrice.toNat? with
         | some o, some n => decide (o < n)
         | _, _ => false)
    | none => false
  if inc then "Price Increase" else "Price Decrease"

/-- One watched-field entry of the change log
(src/src/pipeline/property-processor.ts lines 652-662): a row is appended
when the values differ and the new value is non-null. -/
def changeLogEntry (listingKey fieldName : String) (oldV newV : Option String)
    (modTs : JSDate) : List ChangeLogRow :=
  match newV with
  | some nv =>
    if oldV ≠ some nv then
      [{ listingKey := listingKey, fieldName := fieldName, oldValue := oldV,
         newValue := nv, modificationTs := modTs }]
    else []
  | none => []

/-- Function `recordDiffs` (src/src/pipeline/property-processor.ts lines 602-663):
the price-history, status-history and change-log rows appended for one
record on the replication update path.  The change-log fields are walked
in the source's insertion order: ListPrice, StandardStatus, PhotosCount,
PublicRemarks, LivingArea. -/
def recordDiffs (listingKey : String) (existing : PropertyRow) (raw : MlsProp) :
    List PriceHistoryRow × List StatusHistoryRow × List ChangeLogRow :=
  let modTs := jsDateOf raw.ModificationTimestamp
  let newPrice := raw.ListPrice.map toString
  let priceRows :=
    match newPrice with
    | some np =>
      if existing.listPrice ≠ some np then
        [{ listingKey := listingKey
           oldPrice := existing.listPrice
           newPrice := np
           changeType := raw.MajorChangeType.getD (priceChangeType existing.listPrice np)
           modificationTs := modTs }]
      else []
    | none => []
  let statusRows :=
    match raw.StandardStatus with
    | some ns =>
      if existing.standardStatus ≠ some ns then
        [{ listingKey := listingKey
           oldStatus := existing.standardStatus
           newStatus := ns
           modificationTs := modTs }]
      else []
    | none => []
  let changeRows :=
    changeLogEntry listingKey "ListPrice" existing.listPrice
      (raw.ListPrice.map toString) modTs ++
    changeLogEntry listingKey "StandardStatus" existing.standardStatus
      raw.StandardStatus modTs ++
    changeLogEntry listingKey "PhotosCount" (existing.photosCount.map toString)
      (raw.PhotosCount.map toString) modTs ++
    changeLogEntry listingKey "PublicRemarks" existing.publicRemarks
      raw.PublicRemarks modTs ++
    changeLogEntry listingKey "LivingArea" existing.livingArea
      (raw.LivingArea.map toString) modTs
  (priceRows, statusRows, changeRows)

/-- Constant `MEDIA_MAX_RETRIES` of the inline downloader
(src/src/pipeline/property-processor.ts line 386). -/
def MEDIA_MAX_RETRIES : Nat := 3

/-- Result of the inline per-media retry loop
(src/src/pipeline/property-processor.ts lines 866-969). -/
inductive InlineResult
  | completed (bytes : Nat) (contentType : String)
  | keptExisting
  | markedExpired
  | exhausted
  deriving Repr, DecidableEq

/-- The inline retry loop (src/src/pipeline/property-processor.ts lines
866-969): up to `fuel` attempts; success downloads and uploads; 400/403
keeps the existing object when `existingOk` (the row already has a truthy
public URL and a positive size, lines 919-931) and otherwise marks the row
expired, in both cases without retrying; 429 and other errors retry until
the attempts are exhausted (the sleeps are not modelled). -/
def inlineLoop (existingOk : Bool) (dl : Nat → DLOutcome) :
    Nat → Nat → InlineResult
  | _, 0 => InlineResult.exhausted
  | attempt, fuel + 1 =>
    match dl attempt with
    | .success bytes ct => InlineResult.completed bytes ct
    | .httpError st =>
      if st == 400 || st == 403 then
        if existingOk then InlineResult.keptExisting else InlineResult.markedExpired
      else inlineLoop existingOk dl (attempt + 1) fuel
    | .otherError => inlineLoop existingOk dl (attempt + 1) fuel

/-- Models `INSERT ... ON CONFLICT (media_key) DO UPDATE`: insert `ins` when no
row bears the key, else apply `upd` to the existing row. -/
def upsertMedia (rows : List MediaRow) (key : String) (ins : MediaRow)
    (upd : MediaRow → MediaRow) : List MediaRow :=
  if rows.any (fun r => r.mediaKey == key) then
    rows.map (fun r => if r.mediaKey == key then upd r else r)
  else rows ++ [ins]

/-- Models `uploadToR2` as seen by the object store: the key becomes present. -/
def addObject (objs : List String) (key : String) : List String :=
  if objs.contains key then objs else objs ++ [key]

/-- One iteration of the inline media loop
(src/src/pipeline/property-processor.ts lines 756-987).  The accumulator
carries the state and the `downloaded`/`failed`/`skipped` counters;
`existingSnapshot` is the `existingMediaMap` built before the stale-media
deletion; `dl` maps (media key, attempt) to the download outcome. -/
def inlineStep (publicDomain listingKey resourceType : String)
    (freshUrlMap : Option (List (String × String))) (nowSec : Nat)
    (existingSnapshot : List MediaRow) (dl : String → Nat → DLOutcome)
    (acc : WorkerDb × Nat × Nat × Nat) (pair : MediaRow × MlsMediaRec) :
    WorkerDb × Nat × Nat × Nat :=
  let db := acc.1
  let downloaded := acc.2.1
  let failed := acc.2.2.1
  let skipped := acc.2.2.2
  let row := pair.1
  let rawMedia := pair.2
  let existingRow := existingSnapshot.find? (fun m => m.mediaKey == row.mediaKey)
  let needsDownload : Bool :=
    match existingRow with
    | none => true
    | some ex =>
      ex.status != MediaStatus.complete ||
        (row.mediaModTs.isSome && ex.mediaModTs != row.mediaModTs)
  if !needsDownload then
    -- unchanged media: metadata-only upsert (lines 771-786)
    ({ db with
       mediaRows := upsertMedia db.mediaRows row.mediaKey
         { row with status := MediaStatus.complete }
         (fun r => { r with
           mediaOrder := row.mediaOrder
           mediaCategory := row.mediaCategory }) },
     downloaded, failed, skipped + 1)
  else if (match existingRow with
      | some ex =>
        truthyStr ex.r2ObjectKey && truthyOptStr ex.publicUrl &&
          (match ex.fileSizeBytes with
           | some n => decide (0 < n)
           | none => false)
      | none => false) then
    -- already in store: restore complete without re-download (lines 794-817)
    ({ db with
       mediaRows := db.mediaRows.map (fun r =>
         if r.mediaKey == row.mediaKey then
           { r with
             status := MediaStatus.complete
             mediaOrder := row.mediaOrder
             mediaCategory := row.mediaCategory
             mediaModTs := row.mediaModTs }
         else r) },
     downloaded, failed, skipped + 1)
  else
    let mediaUrl :=
      match freshUrlMap with
      | some m =>
        match m.lookup row.mediaKey with
        | some u => some u
        | none => rawMedia.MediaURL
      | none => rawMedia.MediaURL
    match mediaUrl with
    | none =>
      -- no URL: failed (lines 824-835)
      ({ db with
         mediaRows := upsertMedia db.mediaRows row.mediaKey
           { row with status := MediaStatus.failed }
           (fun r => { r with status := MediaStatus.failed }) },
       downloaded, failed + 1, skipped)
    | some u =>
      if u == "" then
        ({ db with
           mediaRows := upsertMedia db.mediaRows row.mediaKey
             { row with status := MediaStatus.failed }
             (fun r => { r with status := MediaStatus.failed }) },
         downloaded, failed + 1, skipped)
      else if isMediaUrlExpired u nowSec 60 then
        -- pre-flight: URL already expired (lines 839-863)
        if (match existingRow with
            | some ex => ex.status == MediaStatus.expired
            | none => false) then
          (db, downloaded, failed, skipped + 1)
        else
          ({ db with
             mediaRows := upsertMedia db.mediaRows row.mediaKey
               { row with status := MediaStatus.expired, mediaUrlSource := some u }
               (fun r => { r with
                 status := MediaStatus.expired
                 mediaUrlSource := some u }) },
           downloaded, failed + 1, skipped)
      else
        let existingOk :=
          match existingRow with
          | some ex =>
            truthyOptStr ex.publicUrl &&
              (match ex.fileSizeBytes with
               | some n => decide (0 < n)
               | none => false)
          | none => false
        match inlineLoop existingOk (dl row.mediaKey) 0 MEDIA_MAX_RETRIES with
        | .completed bytes ct =>
          let key := buildR2ObjectKey resourceType listingKey row.mediaKey ct
          let publicUrl := buildPublicUrl publicDomain key
          ({ db with
             r2Objects := addObject db.r2Objects key
             mediaRows := upsertMedia db.mediaRows row.mediaKey
               { row with
                 status := MediaStatus.complete
                 r2ObjectKey := key
                 publicUrl := some publicUrl
                 fileSizeBytes := some bytes
                 contentType := some ct }
               (fun r => { r with
                 status := MediaStatus.complete
                 r2ObjectKey := key
                 publicUrl := some publicUrl
                 mediaUrlSource := row.mediaUrlSource
                 mediaModTs := row.mediaModTs
                 mediaOrder := row.mediaOrder
                 fileSizeBytes := some bytes
                 contentType := some ct }) },
           downloaded + 1, failed, skipped)
        | .keptExisting => (db, downloaded, failed, skipped)
        | .markedExpired =>
          ({ db with
             mediaRows := upsertMedia db.mediaRows row.mediaKey
               { row with status := MediaStatus.expired, mediaUrlSource := some u }
               (fun r => { r with
                 status := MediaStatus.expired
                 mediaUrlSource := some u }) },
           downloaded, failed, skipped)
        | .exhausted =>
          ({ db with
             mediaRows := upsertMedia db.mediaRows row.mediaKey
               { row with status := MediaStatus.failed }
               (fun r => { r with
                 status := MediaStatus.failed
                 retryCount := MEDIA_MAX_RETRIES }) },
           downloaded, failed + 1, skipped)

/-- Function `downloadMediaInline` (src/src/pipeline/property-processor.ts lines
670-995): delete stale media (rows absent from the incoming list) from the
object store (`r2Ok = false` models a caught batch-deletion failure) and
the table, consult the fresh-URL refetch (`freshFetch` is the oracle for
the single-listing `fetchPage` call, lines 717-754, made only when the
first incoming URL is present and expired and a listing id is known), and
run the per-media loop.  Returns the state and the
(downloaded, failed, skipped) counters. -/
def downloadMediaInline (publicDomain listingKey : String)
    (listingId : Option String) (resourceType : String)
    (incoming : List MlsMediaRec) (nowSec : Nat)
    (freshFetch : Option (List (String × String)))
    (dl : String → Nat → DLOutcome) (r2Ok : Bool) (db : WorkerDb) :
    WorkerDb × Nat × Nat × Nat :=
  let existingMedia := db.mediaRows.filter (fun m => m.listingKey == listingKey)
  let incomingKeys := (incoming.filterMap MlsMediaRec.MediaKey).filter truthyStr
  let mediaToDelete := existingMedia.filter (fun m => !(incomingKeys.contains m.mediaKey))
  let db1 :=
    if mediaToDelete.isEmpty then db
    else
      let delKeys := mediaToDelete.map MediaRow.mediaKey
      let r2Keys := mediaToDelete.map MediaRow.r2ObjectKey
      { db with
        r2Objects :=
          if r2Ok then db.r2Objects.filter (fun o => !(r2Keys.contains o))
          else db.r2Objects
        mediaRows := db.mediaRows.filter (fun m => !(delKeys.contains m.mediaKey)) }
  let mediaRows := transformMediaRecords listingKey resourceType incoming
  let firstUrl :=
    match incoming.head? with
    | some m => m.MediaURL
    | none => none
  let doRefetch :=
    (match firstUrl with
     | some uu => truthyStr uu && isMediaUrlExpired uu nowSec 60
     | none => false) && truthyOptStr listingId
  let freshUrlMap := if doRefetch then freshFetch else none
  (mediaRows.zip incoming).foldl
    (inlineStep publicDomain listingKey resourceType freshUrlMap nowSec
      existingMedia dl)
    (db1, 0, 0, 0)

/-- Per-record statistics returned by the processors
(src/src/pipeline/property-processor.ts lines 388-393). -/
structure ProcessingStats where
  inserted : Nat
  updated : Nat
  deleted : Nat
  mediaQueued : Nat
  deriving Repr, DecidableEq

/-- The property upsert (src/src/pipeline/property-processor.ts lines
453-463): `INSERT ... ON CONFLICT (listing_key) DO UPDATE SET
{...transformed, createdAt: undefined}`.  On update every transformed
column is overwritten but `createdAt` is kept (and `deletedAt`, which the
mapper does not emit, keeps its stored value); on insert `createdAt` is
the database default `now()`. -/
def upsertProperty (props : List PropertyRow) (transformed : PropertyRow)
    (now : Nat) : List PropertyRow :=
  if props.any (fun p => p.listingKey == transformed.listingKey) then
    props.map (fun p =>
      if p.listingKey == transformed.listingKey then
        { transformed with createdAt := p.createdAt, deletedAt := p.deletedAt }
      else p)
  else props ++ [{ transformed with createdAt := some now }]

/-- The raw-archive upsert (src/src/pipeline/property-processor.ts lines
466-480): on conflict only `rawData` and `receivedAt` are updated (the
stored raw JSON itself is not read by any embedded operation). -/
def upsertRawResponse (rows : List RawResponseRow) (listingKey origSys : String)
    (now : Nat) : List RawResponseRow :=
  if rows.any (fun r => r.listingKey == listingKey) then
    rows.map (fun r =>
      if r.listingKey == listingKey then { r with receivedAt := now } else r)
  else rows ++ [{ listingKey := listingKey, originatingSystem := origSys, receivedAt := now }]

/-- Function `processPropertyRecord` (src/src/pipeline/property-processor.ts lines
404-522, the inline-download revision).  A record without a truthy
`ListingKey` is skipped.  `MlgCanView === false` routes to
`handleSoftDelete` and returns `deleted = 1` UNCONDITIONALLY — also when no
row existed and nothing was done.  Otherwise: load existing, record diffs
(update path outside initial import), replace children, upsert the listing
and the raw archive, and, when the photos changed, run the inline media
download; `mediaQueued` is `downloaded + failed`.  The alert hook
(`notifyIfNeeded`) is a no-op.  `now`/`nowSec` stand for the wall clock,
`freshFetch`/`dl`/`r2Ok` are the network and object-store oracles. -/
def processPropertyRecord (raw : MlsProp) (isInitialImport : Bool)
    (publicDomain : String) (now nowSec : Nat)
    (freshFetch : Option (List (String × String)))
    (dl : String → Nat → DLOutcome) (r2Ok : Bool) (db : WorkerDb) :
    WorkerDb × ProcessingStats :=
  match raw.ListingKey with
  | none => (db, ⟨0, 0, 0, 0⟩)
  | some listingKey =>
    if listingKey = "" then (db, ⟨0, 0, 0, 0⟩)
    else if raw.MlgCanView = some false then
      (handleSoftDelete listingKey raw isInitialImport now r2Ok db, ⟨0, 0, 1, 0⟩)
    else
      let existing := findProperty db listingKey
      let isNew := existing.isNone
      let db1 :=
        match existing with
        | some ex =>
          if isInitialImport then db
          else
            let diffs := recordDiffs listingKey ex raw
            { db with
              priceHistory := db.priceHistory ++ diffs.1
              statusHistory := db.statusHistory ++ diffs.2.1
              propertyChangeLog := db.propertyChangeLog ++ diffs.2.2 }
        | none => db
      let transformed := transformProperty raw now
      let roomRows := transformRooms listingKey raw.Rooms
      let unitTypeRows := transformUnitTypes listingKey raw.UnitTypes
      let db2 :=
        { db1 with
          rooms := db1.rooms.filter (fun r => r.listingKey != listingKey) ++ roomRows
          unitTypes :=
            db1.unitTypes.filter (fun u => u.listingKey != listingKey) ++ unitTypeRows
          properties := upsertProperty db1.properties transformed now
          rawResponses :=
            upsertRawResponse db1.rawResponses listingKey transformed.originatingSystem now }
      let photosChanged : Bool :=
        isNew ||
          (match existing, raw.PhotosChangeTimestamp with
           | some ex, some pts =>
             truthyStr pts && (ex.photosChangeTs != parseIsoDate pts)
           | _, _ => false)
      let afterMedia :=
        if photosChanged && !raw.Media.isEmpty then
          let res := downloadMediaInline publicDomain listingKey raw.ListingId
            "Property" raw.Media nowSec freshFetch dl r2Ok db2
          (res.1, res.2.1 + res.2.2.1)
        else (db2, 0)
      if isNew then (afterMedia.1, ⟨1, 0, 0, afterMedia.2⟩)
      else (afterMedia.1, ⟨0, 1, 0, afterMedia.2⟩)

/-- A feed record whose `ModificationTimestamp` is malformed. -/
def c7Record : MlsProp :=
  { emptyMlsProp with
    ListingKey := some "L1"
    ModificationTimestamp := some "not-a-timestamp" }

/-- A `canView=false` record for a listing the database has never seen. -/
def c6Record : MlsProp :=
  { emptyMlsProp with
    ListingKey := some "L1"
    MlgCanView := some false
    ModificationTimestamp := some "2024-01-02T03:04:05.000Z" }

/-- A stored listing row used by the C1 scenario. -/
def c1Prop : PropertyRow :=
  { listingKey := "L1"
    listingId := some "ACT123"
    originatingSystem := "actris"
    listPrice := some "500000"
    standardStatus := some "Active"
    publicRemarks := none
    livingArea := none
    photosCount := some 3
    mlgCanView := true
    deletedAt := none
    modificationTs := some 1704164645000
    photosChangeTs := none
    createdAt := some 0
    updatedAt := some 0 }

/-- A stored complete media row for that listing, with its object in R2. -/
def c1Media : MediaRow :=
  { c3Row with
    status := MediaStatus.complete
    fileSizeBytes := some 12345
    mediaUrlSource := some "https://media.mlsgrid.com/x?expires=1704200000" }

/-- The pre-state for the C1 scenario: one visible listing, one complete
media row, its object-store object present. -/
def c1Db : WorkerDb :=
  { emptyDb with
    properties := [c1Prop]
    mediaRows := [c1Media]
    r2Objects := ["Property/L1/M1.jpg"] }

/-- The incoming `canView=false` record for that listing. -/
def c1Record : MlsProp :=
  { emptyMlsProp with
    ListingKey := some "L1"
    MlgCanView := some false
    ModificationTimestamp := some "2024-01-03T00:00:00.000Z" }

/-- One record as it crosses the cycle driver's page loop
(src/src/pipeline/replication-cycle.ts lines 105-142): its primary key
(`getRecordKey`, lines 290-303), its raw `ModificationTimestamp` string,
and whether its processor resolves (`ok = false` models a per-record error,
which the driver logs and swallows, lines 135-141). -/
structure CycleRec where
  key : Option String
  modTs : Option String
  ok : Bool
  deriving Repr, DecidableEq

/-- The dedup skip test of the record loop
(src/src/pipeline/replication-cycle.ts line 110):
`dedupSet && recordKey && dedupSet.has(recordKey)`. -/
def cycleSkip (dedup : Option (List String)) (key : Option String) : Bool :=
  match dedup, key with
  | some ds, some k => truthyStr k && ds.contains k
  | _, _ => false

/-- Models `dedupSet.delete(recordKey)` on a skip (line 111). -/
def cycleDedupErase (dedup : Option (List String)) (key : Option String) :
    Option (List String) :=
  match dedup, key with
  | some ds, some k => some (ds.erase k)
  | _, _ => dedup

/-- Discard the dedup set once it is empty (lines 114-117). -/
def cycleDedupDiscard (dedup : Option (List String)) : Option (List String) :=
  match dedup with
  | some ds => if ds.isEmpty then none else some ds
  | none => none

/-- The HWM advance for one successfully processed record (lines 127-134):
`if (modTs) { const ts = new Date(modTs); if (!hwmEnd || ts > hwmEnd)
hwmEnd = ts; }`.  An Invalid Date never exceeds a valid `hwmEnd` but is
installed when `hwmEnd` is null. -/
def cycleHwmStep (hwmEnd : Option JSDate) (modTs : Option String) : Option JSDate :=
  match modTs with
  | some s =>
    if truthyStr s then
      let ts := parseIsoDate s
      let upd :=
        match hwmEnd with
        | none => true
        | some d => jsGt ts d
      if upd then some ts else hwmEnd
    else hwmEnd
  | none => hwmEnd

/-- The record loop of `runReplicationCycle`
(src/src/pipeline/replication-cycle.ts lines 105-142), as a function of the
dedup set and the running `hwmEnd` (which starts as the run's `hwm`,
line 82).  Per record: a dedup hit removes the key and skips the record;
otherwise the set is discarded once empty, the record is handed to its
processor, and on success the HWM advances (`ok = false` models a
per-record error, logged and swallowed, lines 135-141).  Returns the
records handed to a processor, in order, and the final `hwmEnd` written to
the run record (lines 163-176). -/
def cycleIterate : Option (List String) → Option JSDate → List CycleRec →
    List CycleRec × Option JSDate
  | _, hwmEnd, [] => ([], hwmEnd)
  | dedup, hwmEnd, rec :: rest =>
    if cycleSkip dedup rec.key then
      cycleIterate (cycleDedupErase dedup rec.key) hwmEnd rest
    else
      let dedup' := cycleDedupDiscard dedup
      if rec.ok then
        let r := cycleIterate dedup' (cycleHwmStep hwmEnd rec.modTs) rest
        (rec :: r.1, r.2)
      else
        let r := cycleIterate dedup' hwmEnd rest
        (rec :: r.1, r.2)

/-- Function `buildDedupSet` for the Property resource
(src/src/pipeline/replication-cycle.ts lines 234-262): the set (duplicates
collapsed) of listing keys whose STORED `modificationTs` equals the HWM
exactly. -/
def buildDedupSet (props : List PropertyRow) (hwm : Nat) : List String :=
  ((props.filter (fun p => p.modificationTs == some hwm)).map
    PropertyRow.listingKey).dedup

/-- The claim's dedup semantics, written independently of the loop: drop
the first occurrence of each key in the set (removing the key as it is
used); every other record is kept. -/
def dedupScan (ds : List String) : List CycleRec → List CycleRec
  | [] => []
  | rec :: rest =>
    match rec.key with
    | some k =>
      if truthyStr k && ds.contains k then dedupScan (ds.erase k) rest
      else rec :: dedupScan ds rest
    | none => rec :: dedupScan ds rest

/-- The claim's reading of `the greatest ModificationTimestamp among the
records the cycle saw`: the maximum over all records' parsed timestamps. -/
def maxSeenModTs : List CycleRec → Option Nat
  | [] => none
  | rec :: rest =>
    match rec.modTs.bind parseIsoDate with
    | some t =>
      match maxSeenModTs rest with
      | none => some t
      | some m => some (max t m)
    | none => maxSeenModTs rest

/-- Maximum of two optional timestamps. -/
def optMax : Option Nat → Option Nat → Option Nat
  | none, b => b
  | some a, none => some a
  | some a, some b => some (max a b)

/-- The records the page loop hands to a processor, computed without
running the loop: the dedup scan of the record list. -/
def processedOf (dedup : Option (List String)) (recs : List CycleRec) :
    List CycleRec :=
  match dedup with
  | some ds => dedupScan ds recs
  | none => recs

/-- A committed-at-HWM sibling record (its key sits in the dedup set). -/
def c5RecA : CycleRec :=
  { key := some "A", modTs := some "2024-01-02T03:04:05.000Z", ok := true }

/-- The not-yet-committed sibling sharing the HWM timestamp. -/
def c5RecB : CycleRec :=
  { key := some "B", modTs := some "2024-01-02T03:04:05.000Z", ok := true }

/-- Projection of an `open_houses` table row
(src/src/db/schema/open-houses.ts) onto the columns the processor writes
that the claim observes. -/
structure OpenHouseRow where
  openHouseKey : String
  listingId : String
  originatingSystem : String
  mlgCanView : Bool
  modificationTs : JSDate
  updatedAt : Option Nat
  deriving Repr, DecidableEq

/-- Projection of a feed OpenHouse record. -/
structure MlsOpenHouse where
  OpenHouseKey : Option String
  ListingId : Option String
  OriginatingSystemName : Option String
  MlgCanView : Option Bool
  ModificationTimestamp : Option String
  deriving Repr, DecidableEq

/-- Function `processOpenHouseRecord` (src/src/pipeline/resource-processors.ts
lines 220-278).  Records without a truthy key are skipped;
`MlgCanView === false` hard-deletes the row and reports `deleted = 1`; a
missing listing id skips; otherwise the row is upserted by
`OpenHouseKey` and the stats report `inserted = 1` UNCONDITIONALLY — the
source comment on line 276 reads `Simplified — could check for existing` —
even when the upsert updated an existing row.  (The `localFields` bag and
schedule columns are not read by the claim and are omitted from the row
projection; `_isInitialImport` is unused by the source.) -/
def processOpenHouseRecord (raw : MlsOpenHouse) (_isInitialImport : Bool)
    (now : Nat) (rows : List OpenHouseRow) : List OpenHouseRow × ProcessingStats :=
  match raw.OpenHouseKey with
  | none => (rows, ⟨0, 0, 0, 0⟩)
  | some key =>
    if key = "" then (rows, ⟨0, 0, 0, 0⟩)
    else if raw.MlgCanView = some false then
      (rows.filter (fun r => r.openHouseKey != key), ⟨0, 0, 1, 0⟩)
    else
      match raw.ListingId with
      | none => (rows, ⟨0, 0, 0, 0⟩)
      | some lid =>
        if lid = "" then (rows, ⟨0, 0, 0, 0⟩)
        else
          let data : OpenHouseRow :=
            { openHouseKey := key
              listingId := lid
              originatingSystem := raw.OriginatingSystemName.getD "actris"
              mlgCanView := true
              modificationTs := jsDateOf raw.ModificationTimestamp
              updatedAt := some now }
          let rows' :=
            if rows.any (fun r => r.openHouseKey == key) then
              rows.map (fun r => if r.openHouseKey == key then data else r)
            else rows ++ [data]
          (rows', ⟨1, 0, 0, 0⟩)

/-- The stored OpenHouse row of the C9 failing input. -/
def c9Existing : OpenHouseRow :=
  { openHouseKey := "OH1"
    listingId := "ACT123"
    originatingSystem := "actris"
    mlgCanView := true
    modificationTs := some 1704164645000
    updatedAt := some 0 }

/-- The incoming record bearing the same `OpenHouseKey`. -/
def c9Raw : MlsOpenHouse :=
  { OpenHouseKey := some "OH1"
    ListingId := some "ACT123"
    OriginatingSystemName := some "actris"
    MlgCanView := none
    ModificationTimestamp := some "2024-01-03T00:00:00.000Z" }

theorem currentHourBytes_prune (now : Nat) (entries : List MediaEntry) :
    currentHourBytes now (pruneMediaDownloads now entries) =
      currentHourBytes now entries := by
  unfold currentHourBytes pruneMediaDownloads
  rw [List.filter_filter]
  simp

/-- Claim C2 counterexample: one second past the top of a clock hour, a
single event recorded 1 s earlier (hence inside the rolling 60-minute
window) already carries the full 4 GiB hard cap, yet `checkMediaDownload`
admits immediately (returns wait 0), because the event falls in the
previous clock hour. -/
theorem claim_C2_counterexample :
    defaultHardCap ≤ rollingHourBytes 3601000 [⟨3599000, defaultHardCap⟩] ∧
    checkMediaDownload 3601000 defaultHardCap defaultSoftCap
      [⟨3599000, defaultHardCap⟩] = 0 := by
  decide

/-- Claim C2 amended: `checkMediaDownload` enforces the caps over the fixed
UTC clock-hour window, not a rolling 60-minute window: the returned wait is
time-to-next-hour + 100 ms when the current clock hour's byte sum has
reached the hard cap, 10 s when it has reached the soft cap but not the
hard cap, and 0 otherwise. -/
theorem claim_C2_amended (now hardCap softCap : Nat) (entries : List MediaEntry) :
    (hardCap ≤ currentHourBytes now entries →
      checkMediaDownload now hardCap softCap entries =
        startOfHour now + ONE_HOUR - now + 100) ∧
    (softCap ≤ currentHourBytes now entries →
      currentHourBytes now entries < hardCap →
      checkMediaDownload now hardCap softCap entries = 10000) ∧
    (currentHourBytes now entries < softCap →
      currentHourBytes now entries < hardCap →
      checkMediaDownload now hardCap softCap entries = 0) := by
  simp only [checkMediaDownload, currentHourBytes_prune]
  refine ⟨fun h => ?_, fun hs hh => ?_, fun hs hh => ?_⟩
  · rw [if_pos h]
  · rw [if_neg (by omega), if_pos hs]
  · rw [if_neg (by omega), if_neg (by omega)]

/-- Witness for claim C2 amended: with the current clock hour holding
exactly the soft cap (and less than the hard cap), the wait is 10 s. -/
theorem claim_C2_witness :
    checkMediaDownload 3600600 defaultHardCap defaultSoftCap
      [⟨3600500, defaultSoftCap⟩] = 10000 :=
  (claim_C2_amended 3600600 defaultHardCap defaultSoftCap
    [⟨3600500, defaultSoftCap⟩]).2.1 (by decide) (by decide)

example : parseIsoDate "2024-01-02T03:04:05.000Z" = some 1704164645000 := by decide

example : toIsoString 1704164645000 = "2024-01-02T03:04:05.000Z" := by decide

example : parseIsoDate "not-a-timestamp" = none := by decide

/-- Claim C8 counterexample: for vendor `actris`, HWM epoch 0 and the
resume-safe flag set, the built `$filter` contains the quoted vendor clause
and the clause `ModificationTimestamp ge 1970-01-01T00:00:00.000Z` without
quotes, but does NOT contain the single-quoted timestamp clause the claim
requires. -/
theorem claim_C8_counterexample :
    containsSub (buildReplicationFilter "actris" 0 true)
      ("OriginatingSystemName eq " ++ squote ++ "actris" ++ squote) = true ∧
    containsSub (buildReplicationFilter "actris" 0 true)
      ("ModificationTimestamp ge " ++ squote ++ "1970-01-01T00:00:00.000Z" ++ squote)
      = false ∧
    containsSub (buildReplicationFilter "actris" 0 true)
      "ModificationTimestamp ge 1970-01-01T00:00:00.000Z" = true := by
  decide

/-- Claim C8 amended: `buildReplicationUrl`'s `$filter` starts with
`OriginatingSystemName eq '<vendor>'` and ends with the clause
`ModificationTimestamp <op> <iso-timestamp>` where the ISO timestamp is NOT
quoted, `<op>` is `ge` exactly when the resume-safe flag is set and `gt`
otherwise; the URL's `$top` is 1000 when an `$expand` parameter is emitted
and 5000 otherwise. -/
theorem and_modTs_split (y : String) :
    (" and ModificationTimestamp " : String) ++ y =
      " and " ++ ("ModificationTimestamp " ++ y) := by
  have h : (" and ModificationTimestamp " : String) =
      " and " ++ "ModificationTimestamp " := by decide
  rw [h, String.append_assoc]

theorem claim_C8_amended (base : String) (resource : ResourceType)
    (originatingSystem : String) (hwm : Nat) (useGe : Bool) :
    (∃ rest, buildReplicationFilter originatingSystem hwm useGe =
      "OriginatingSystemName eq " ++ squote ++ originatingSystem ++ squote ++ rest) ∧
    (∃ front, buildReplicationFilter originatingSystem hwm useGe =
      front ++ ("ModificationTimestamp " ++ (if useGe then "ge" else "gt") ++ " " ++
        toIsoString hwm)) ∧
    ((getExpandParam resource).isSome = true → topFor resource = 1000) ∧
    ((getExpandParam resource).isSome = false → topFor resource = 5000) ∧
    (∃ tail, buildReplicationUrl base resource originatingSystem hwm useGe =
      base ++ "/" ++ resourceName resource ++ "?$filter=" ++
        encodeURIComponent (buildReplicationFilter originatingSystem hwm useGe) ++
        "&$top=" ++ toString (topFor resource) ++ tail) := by
  refine ⟨⟨" and ModificationTimestamp " ++ (if useGe then "ge" else "gt") ++ " " ++
    toIsoString hwm, ?_⟩,
    ⟨"OriginatingSystemName eq " ++ squote ++ originatingSystem ++ squote ++
      " and ", ?_⟩, ?_, ?_, ?_⟩
  · simp [buildReplicationFilter, String.append_assoc]
  · simp only [buildReplicationFilter, String.append_assoc]
    rw [and_modTs_split]
  · intro h
    simp [topFor, h]
  · intro h
    simp [topFor, h]
  · unfold buildReplicationUrl
    match h : getExpandParam resource with
    | some e => exact ⟨"&$expand=" ++ e, by simp [String.append_assoc]⟩
    | none => exact ⟨"", by simp⟩

/-- Witness for claim C8 amended, at the Property resource, vendor
`actris`, HWM 0, resume-safe: the `$top` is 1000 (an expand is emitted). -/
theorem claim_C8_witness : topFor ResourceType.Property = 1000 :=
  (claim_C8_amended "https://api.mlsgrid.com" ResourceType.Property
    "actris" 0 true).2.2.1 rfl

theorem parseUrlExpiryAux_eq_none (cs : List Char)
    (h : cs.tails.any expiresTokenAt = false) : parseUrlExpiryAux cs = none := by
  induction cs with
  | nil => rfl
  | cons c rest ih =>
    rw [List.tails_cons] at h
    simp only [List.any_cons, Bool.or_eq_false_iff] at h
    rw [parseUrlExpiryAux]
    rw [if_neg]
    · exact ih h.2
    · intro hc
      have : expiresTokenAt (c :: rest) = true := hc
      rw [h.1] at this
      exact Bool.false_ne_true this

/-- Claim C10 counterexample: this URL has no query string at all (no `?`
occurs), hence carries no `expires=` query parameter, yet
`isMediaUrlExpired` reports it expired, because the regex `[?&]expires=`
also matches an `&expires=1` token inside the path. -/
theorem claim_C10_counterexample :
    hasExpiresQueryParam "https://cdn.example.com/a&expires=1/img.jpg" = false ∧
    isMediaUrlExpired "https://cdn.example.com/a&expires=1/img.jpg" 1000 60 = true := by
  decide

/-- Claim C10 amended: for every URL string in which no `?` or `&` is
immediately followed by `expires=` and a digit — anywhere in the string,
query component or not — `isMediaUrlExpired` returns false, so such a URL
is treated as valid (never expired) by every pre-flight expiry check. -/
theorem claim_C10_amended (url : String) (nowSec bufferSec : Nat)
    (h : hasExpiresToken url = false) :
    isMediaUrlExpired url nowSec bufferSec = false := by
  unfold isMediaUrlExpired parseUrlExpiry
  rw [parseUrlExpiryAux_eq_none url.data h]

/-- Witness for claim C10 amended: a plain CDN URL with no expiry token is
never reported expired. -/
theorem claim_C10_witness :
    isMediaUrlExpired "https://cdn.example.com/img.jpg" 1000000000 60 = false :=
  claim_C10_amended "https://cdn.example.com/img.jpg" 1000000000 60 (by decide)

/-- Claim C3 counterexample: the table holding only `c3Row` satisfies the
completeness invariant (the row is `failed`), yet `recoverFailedMedia`'s
fast path flips the row to `complete` without checking `fileSizeBytes`,
producing a `complete` row of size 0 and breaking the invariant. -/
theorem claim_C3_counterexample :
    mediaInvariant [c3Row] = true ∧
    recoverFailedMediaFastPath [c3Row] =
      [{ c3Row with status := MediaStatus.complete }] ∧
    mediaInvariant (recoverFailedMediaFastPath [c3Row]) = false := by
  decide

theorem strDataAppend (x y : String) : (x ++ y).data = x.data ++ y.data := by
  cases x
  cases y
  rfl

theorem truthyStr_append (x y : String) (hy : truthyStr y = true) :
    truthyStr (x ++ y) = true := by
  simp only [truthyStr, bne_iff_ne, ne_eq] at hy ⊢
  intro h
  apply hy
  have hd := congrArg String.data h
  rw [strDataAppend] at hd
  exact String.ext (List.append_eq_nil.mp hd).2

theorem truthyStr_append_left (x y : String) (hx : truthyStr x = true) :
    truthyStr (x ++ y) = true := by
  simp only [truthyStr, bne_iff_ne, ne_eq] at hx ⊢
  intro h
  apply hx
  have hd := congrArg String.data h
  rw [strDataAppend] at hd
  exact String.ext (List.append_eq_nil.mp hd).1

theorem truthy_getExtensionFromContentType (ct : String) :
    truthyStr (getExtensionFromContentType ct) = true := by
  unfold getExtensionFromContentType
  simp only [List.lookup]
  repeat' split
  all_goals decide

theorem truthy_buildR2ObjectKey (a b c d : String) :
    truthyStr (buildR2ObjectKey a b c d) = true := by
  unfold buildR2ObjectKey
  exact truthyStr_append _ _ (truthy_getExtensionFromContentType d)

theorem truthy_buildPublicUrl (pd key : String) :
    truthyStr (buildPublicUrl pd key) = true := by
  unfold buildPublicUrl
  exact truthyStr_append_left _ _ (truthyStr_append _ _ (by decide))

theorem mediaRowOk_retryBump (r : MediaRow) (n : Nat) :
    mediaRowOk { r with retryCount := n } = mediaRowOk r := by
  cases r
  rfl

theorem mediaInvariant_updateMediaRow (rows : List MediaRow) (key : String)
    (f : MediaRow → MediaRow) (hinv : mediaInvariant rows = true)
    (hf : ∀ r ∈ rows, mediaRowOk r = true → mediaRowOk (f r) = true) :
    mediaInvariant (updateMediaRow rows key f) = true := by
  unfold mediaInvariant updateMediaRow
  rw [List.all_map, List.all_eq_true]
  intro r hr
  have hok : mediaRowOk r = true := List.all_eq_true.mp hinv r hr
  by_cases h : r.mediaKey = key
  · simpa [Function.comp, h] using hf r hr hok
  · simpa [Function.comp, h] using hok

/-- Claim C3 amended: `recoverFailedMedia`'s fast path flips a
failed/expired row to `complete` checking only that the object-store key
and public URL are non-empty — it does not check `fileSizeBytes`.  The
completeness invariant is therefore preserved by recovery only under the
extra hypothesis that every failed/expired row with non-empty key and URL
already records a positive size; `downloadOne` preserves the invariant
whenever successful downloads report a positive byte count. -/
theorem claim_C3_amended (publicDomain : String) (rows : List MediaRow)
    (row : MediaRow) (outcome : DLOutcome)
    (hrec : ∀ r ∈ rows,
      (r.status = MediaStatus.failed ∨ r.status = MediaStatus.expired) →
      truthyStr r.r2ObjectKey = true → truthyOptStr r.publicUrl = true →
      ∃ n, r.fileSizeBytes = some n ∧ 0 < n)
    (hbytes : ∀ bytes ct, outcome = DLOutcome.success bytes ct → 0 < bytes)
    (hinv : mediaInvariant rows = true) :
    mediaInvariant (recoverFailedMediaFastPath rows) = true ∧
    mediaInvariant (downloadOne publicDomain row outcome rows) = true := by
  constructor
  · unfold mediaInvariant recoverFailedMediaFastPath
    rw [List.all_map, List.all_eq_true]
    intro r hr
    have hok : mediaRowOk r = true := List.all_eq_true.mp hinv r hr
    by_cases h : (r.status = MediaStatus.failed ∨ r.status = MediaStatus.expired) ∧
        truthyStr r.r2ObjectKey = true ∧ truthyOptStr r.publicUrl = true
    · obtain ⟨n, hn, hpos⟩ := hrec r hr h.1 h.2.1 h.2.2
      simpa [Function.comp, h, mediaRowOk, hn, h.2.1, h.2.2] using hpos
    · simpa [Function.comp, h] using hok
  · cases hsrc : row.mediaUrlSource with
    | none =>
      simp only [downloadOne, hsrc]
      exact mediaInvariant_updateMediaRow rows row.mediaKey _ hinv
        (fun r _ _ => by cases r; simp [mediaRowOk])
    | some u =>
      cases outcome with
      | success bytes ct =>
        have hb : 0 < bytes := hbytes bytes ct rfl
        simp only [downloadOne, hsrc]
        apply mediaInvariant_updateMediaRow rows row.mediaKey _ hinv
        intro r _ _
        simp [mediaRowOk, truthy_buildR2ObjectKey, truthy_buildPublicUrl,
          truthyOptStr, hb]
      | httpError status =>
        simp only [downloadOne, hsrc, downloadOneErr]
        by_cases hExp : (status == 400 || status == 403) = true
        · rw [if_pos hExp]
          exact mediaInvariant_updateMediaRow rows row.mediaKey _ hinv
            (fun r _ _ => by cases r; simp [mediaRowOk])
        · rw [if_neg hExp]
          by_cases h429 : (status == 429) = true
          · rw [if_pos h429]
            exact hinv
          · rw [if_neg h429]
            by_cases hmax : MAX_RETRIES ≤ row.retryCount + 1
            · rw [if_pos hmax]
              exact mediaInvariant_updateMediaRow rows row.mediaKey _ hinv
                (fun r _ _ => by cases r; simp [mediaRowOk])
            · rw [if_neg hmax]
              exact mediaInvariant_updateMediaRow rows row.mediaKey _ hinv
                (fun r _ hok => by rw [mediaRowOk_retryBump]; exact hok)
      | otherError =>
        simp only [downloadOne, hsrc, downloadOneErr]
        rw [if_neg (fun h => Bool.false_ne_true h),
          if_neg (fun h => Bool.false_ne_true h)]
        by_cases hmax : MAX_RETRIES ≤ row.retryCount + 1
        · rw [if_pos hmax]
          exact mediaInvariant_updateMediaRow rows row.mediaKey _ hinv
            (fun r _ _ => by cases r; simp [mediaRowOk])
        · rw [if_neg hmax]
          exact mediaInvariant_updateMediaRow rows row.mediaKey _ hinv
            (fun r _ hok => by rw [mediaRowOk_retryBump]; exact hok)

/-- Witness for claim C3 amended: on a table whose failed row records a
positive size, the fast-path recovery and a successful `downloadOne`
both preserve the completeness invariant. -/
theorem claim_C3_witness :
    mediaInvariant (recoverFailedMediaFastPath [c3RowGood]) = true ∧
    mediaInvariant (downloadOne "media.example.com" c3RowGood
      (DLOutcome.success 10 "image/jpeg") [c3RowGood]) = true :=
  claim_C3_amended "media.example.com" [c3RowGood] c3RowGood
    (DLOutcome.success 10 "image/jpeg")
    (by
      intro r hr h1 h2 h3
      rw [List.mem_singleton] at hr
      subst hr
      exact ⟨5, rfl, by decide⟩)
    (by
      intro bytes ct h
      cases h
      decide)
    (by decide)

/-- Claim C7 counterexample: a malformed `ModificationTimestamp` does NOT
make `transformProperty` raise — the mapper performs no validation and
returns a listing row whose `modificationTs` is the JS Invalid Date, so an
entity row with an invalid instant IS produced. -/
theorem claim_C7_counterexample :
    parseIsoDate "not-a-timestamp" = none ∧
    (transformProperty c7Record 0).modificationTs = none ∧
    (transformProperty c7Record 0).listingKey = "L1" := by
  decide

/-- Claim C7 amended: `transformProperty` does not validate
`ModificationTimestamp` and never raises; a record whose timestamp string
is unparseable yields a row whose `modificationTs` is the JS Invalid Date
(`new Date(raw.ModificationTimestamp!)`, src/unnamed/part_003 line 280). -/
theorem claim_C7_amended (raw : MlsProp) (now : Nat) (s : String)
    (hs : raw.ModificationTimestamp = some s)
    (hbad : parseIsoDate s = none) :
    (transformProperty raw now).modificationTs = none := by
  simp [transformProperty, jsDateOf, hs, hbad]

/-- Witness for claim C7 amended at the malformed record. -/
theorem claim_C7_witness : (transformProperty c7Record 7).modificationTs = none :=
  claim_C7_amended c7Record 7 "not-a-timestamp" rfl (by decide)

theorem handleSoftDelete_absent (listingKey : String) (raw : MlsProp)
    (isInit : Bool) (now : Nat) (r2Ok : Bool) (db : WorkerDb)
    (habs : findProperty db listingKey = none) :
    handleSoftDelete listingKey raw isInit now r2Ok db = db := by
  unfold handleSoftDelete
  rw [habs]

/-- Claim C6 counterexample: on the empty database, processing a
`canView=false` record writes nothing — but the returned stats report
`deleted = 1`, not 0: the processor counts every `canView=false` record as
a delete whether or not a row existed. -/
theorem claim_C6_counterexample :
    (processPropertyRecord c6Record false "media.example.com" 1704164645000
      1704164645 none (fun _ _ => DLOutcome.otherError) true emptyDb).1 = emptyDb ∧
    (processPropertyRecord c6Record false "media.example.com" 1704164645000
      1704164645 none (fun _ _ => DLOutcome.otherError) true emptyDb).2 =
      ⟨0, 0, 1, 0⟩ := by
  decide

/-- Claim C6 amended: when `processPropertyRecord` receives a record with
`canView=false` and no row with that listing key exists, the database is
untouched — no table is written and no history row is appended — but the
returned stats report `deleted = 1` (the `canView=false` branch sets
`stats.deleted = 1` unconditionally, src/src/pipeline/property-processor.ts
lines 419-423). -/
theorem claim_C6_amended (raw : MlsProp) (k : String) (isInit : Bool)
    (publicDomain : String) (now nowSec : Nat)
    (ff : Option (List (String × String))) (dl : String → Nat → DLOutcome)
    (r2Ok : Bool) (db : WorkerDb)
    (hk : raw.ListingKey = some k) (hne : ¬(k = ""))
    (hcv : raw.MlgCanView = some false)
    (habs : findProperty db k = none) :
    processPropertyRecord raw isInit publicDomain now nowSec ff dl r2Ok db =
      (db, ⟨0, 0, 1, 0⟩) := by
  simp only [processPropertyRecord, hk]
  rw [if_neg hne, if_pos hcv, handleSoftDelete_absent k raw isInit now r2Ok db habs]

/-- Witness for claim C6 amended at the concrete record and empty state. -/
theorem claim_C6_witness :
    processPropertyRecord c6Record true "d" 5 5 none
      (fun _ _ => DLOutcome.otherError) false emptyDb = (emptyDb, ⟨0, 0, 1, 0⟩) :=
  claim_C6_amended c6Record "L1" true "d" 5 5 none
    (fun _ _ => DLOutcome.otherError) false emptyDb rfl (by decide) rfl rfl

theorem filter_bne_of_beq_nil (l : List MediaRow) (k : String)
    (h : l.filter (fun m => m.listingKey == k) = []) :
    l.filter (fun m => m.listingKey != k) = l := by
  induction l with
  | nil => rfl
  | cons m rest ih =>
    by_cases hm : (m.listingKey == k) = true
    · simp [List.filter_cons, hm] at h
    · have hm' : (m.listingKey == k) = false := Bool.eq_false_iff.mpr hm
      simp only [List.filter_cons, hm', Bool.false_eq_true, if_false] at h
      have hb : (m.listingKey != k) = true := by
        simp [bne, hm']
      simp only [List.filter_cons, hb, if_true]
      rw [ih h]

/-- Claim C1 counterexample: on a state holding one visible listing with
one complete media row and its stored object, processing a
`canView=false` record in replication mode DELETES the media row and
removes the object-store object — the media is not preserved.  The
status-history part of the claim does hold (one `Deleted/Removed` row). -/
theorem claim_C1_counterexample :
    c1Db.mediaRows = [c1Media] ∧
    c1Db.r2Objects = ["Property/L1/M1.jpg"] ∧
    (processPropertyRecord c1Record false "media.example.com" 1704240000000
      1704240000 none (fun _ _ => DLOutcome.otherError) true c1Db).1.mediaRows = [] ∧
    (processPropertyRecord c1Record false "media.example.com" 1704240000000
      1704240000 none (fun _ _ => DLOutcome.otherError) true c1Db).1.r2Objects = [] ∧
    (processPropertyRecord c1Record false "media.example.com" 1704240000000
      1704240000 none (fun _ _ => DLOutcome.otherError) true c1Db).1.statusHistory =
      [{ listingKey := "L1"
         oldStatus := some "Active"
         newStatus := "Deleted/Removed"
         modificationTs := some 1704240000000 }] := by
  decide

/-- Claim C1 amended: for a `canView=false` record whose key matches an
existing row, `processPropertyRecord` (via `handleSoftDelete`) sets
`canView = false` on the row, appends exactly one `statusHistory` row with
`newStatus = 'Deleted/Removed'` in replication mode (none in initial
import), and then DELETES the listing's media: every media row of the
listing is removed, and when the batch object-store deletion succeeds the
listing's object keys are removed as well (on a caught deletion failure
the rows are still deleted and the objects remain).  The other tables are
untouched and the stats report `deleted = 1`. -/
theorem claim_C1_amended (raw : MlsProp) (k : String) (isInit : Bool)
    (publicDomain : String) (now nowSec : Nat)
    (ff : Option (List (String × String))) (dl : String → Nat → DLOutcome)
    (r2Ok : Bool) (db : WorkerDb) (row : PropertyRow)
    (hk : raw.ListingKey = some k) (hne : ¬(k = ""))
    (hcv : raw.MlgCanView = some false)
    (hfind : findProperty db k = some row) :
    let res := processPropertyRecord raw isInit publicDomain now nowSec ff dl r2Ok db
    res.2 = ⟨0, 0, 1, 0⟩ ∧
    res.1.properties = db.properties.map (fun p =>
      if p.listingKey == k then
        { p with
          mlgCanView := false
          deletedAt := some now
          updatedAt := some now
          modificationTs := jsDateOf raw.ModificationTimestamp }
      else p) ∧
    res.1.mediaRows = db.mediaRows.filter (fun m => m.listingKey != k) ∧
    (isInit = false → res.1.statusHistory = db.statusHistory ++
      [{ listingKey := k
         oldStatus := row.standardStatus
         newStatus := "Deleted/Removed"
         modificationTs := jsDateOf raw.ModificationTimestamp }]) ∧
    (isInit = true → res.1.statusHistory = db.statusHistory) ∧
    res.1.rooms = db.rooms ∧
    res.1.unitTypes = db.unitTypes ∧
    res.1.rawResponses = db.rawResponses ∧
    res.1.priceHistory = db.priceHistory ∧
    res.1.propertyChangeLog = db.propertyChangeLog ∧
    (r2Ok = true → res.1.r2Objects = db.r2Objects.filter (fun o =>
      !(((db.mediaRows.filter (fun m => m.listingKey == k)).map
        MediaRow.r2ObjectKey).contains o))) ∧
    (r2Ok = false → res.1.r2Objects = db.r2Objects) := by
  simp only [processPropertyRecord, hk]
  rw [if_neg hne, if_pos hcv]
  unfold handleSoftDelete
  rw [hfind]
  refine ⟨rfl, rfl, ?_, ?_, ?_, rfl, rfl, rfl, rfl, rfl, ?_, ?_⟩
  · by_cases hemp : (db.mediaRows.filter (fun m => m.listingKey == k)).isEmpty = true
    · show (if (db.mediaRows.filter (fun m => m.listingKey == k)).isEmpty then
        db.mediaRows else _) = _
      rw [if_pos hemp, filter_bne_of_beq_nil _ _ (List.isEmpty_iff.mp hemp)]
    · show (if (db.mediaRows.filter (fun m => m.listingKey == k)).isEmpty then
        db.mediaRows else _) = _
      rw [if_neg hemp]
  · intro h
    subst h
    simp
  · intro h
    subst h
    simp
  · intro h
    subst h
    by_cases hemp : (db.mediaRows.filter (fun m => m.listingKey == k)).isEmpty = true
    · show (if (db.mediaRows.filter (fun m => m.listingKey == k)).isEmpty then
        db.r2Objects else _) = _
      rw [if_pos hemp, List.isEmpty_iff.mp hemp]
      simp
    · show (if (db.mediaRows.filter (fun m => m.listingKey == k)).isEmpty then
        db.r2Objects else _) = _
      rw [if_neg hemp, if_pos rfl]
  · intro h
    subst h
    by_cases hemp : (db.mediaRows.filter (fun m => m.listingKey == k)).isEmpty = true
    · show (if (db.mediaRows.filter (fun m => m.listingKey == k)).isEmpty then
        db.r2Objects else _) = _
      rw [if_pos hemp]
    · show (if (db.mediaRows.filter (fun m => m.listingKey == k)).isEmpty then
        db.r2Objects else _) = _
      rw [if_neg hemp]
      simp

/-- Witness for claim C1 amended at the concrete C1 scenario (replication
mode, object-store deletion succeeding). -/
theorem claim_C1_witness :
    (processPropertyRecord c1Record false "d" 9 9 none
      (fun _ _ => DLOutcome.otherError) true c1Db).2 = ⟨0, 0, 1, 0⟩ ∧
    (processPropertyRecord c1Record false "d" 9 9 none
      (fun _ _ => DLOutcome.otherError) true c1Db).1.statusHistory =
      c1Db.statusHistory ++
        [{ listingKey := "L1"
           oldStatus := c1Prop.standardStatus
           newStatus := "Deleted/Removed"
           modificationTs := jsDateOf c1Record.ModificationTimestamp }] :=
  ⟨(claim_C1_amended c1Record "L1" false "d" 9 9 none
      (fun _ _ => DLOutcome.otherError) true c1Db c1Prop rfl (by decide) rfl rfl).1,
    (claim_C1_amended c1Record "L1" false "d" 9 9 none
      (fun _ _ => DLOutcome.otherError) true c1Db c1Prop rfl (by decide) rfl
      rfl).2.2.2.1 rfl⟩

theorem optMax_assoc (a b c : Option Nat) :
    optMax (optMax a b) c = optMax a (optMax b c) := by
  cases a <;> cases b <;> cases c <;> simp [optMax, Nat.max_assoc]

theorem cycleSkip_none (key : Option String) : cycleSkip none key = false := by
  cases key <;> rfl

theorem cycleIterate_none_processed (hwmEnd : Option JSDate)
    (recs : List CycleRec) : (cycleIterate none hwmEnd recs).1 = recs := by
  induction recs generalizing hwmEnd with
  | nil => rfl
  | cons rec rest ih =>
    rw [cycleIterate, if_neg (by rw [cycleSkip_none]; exact Bool.false_ne_true)]
    show (if rec.ok then _ else _ : List CycleRec × Option JSDate).1 = _
    by_cases hok : rec.ok = true
    · rw [if_pos hok]
      show rec :: (cycleIterate (cycleDedupDiscard none) _ rest).1 = _
      rw [show cycleDedupDiscard none = none from rfl, ih]
    · rw [if_neg hok]
      show rec :: (cycleIterate (cycleDedupDiscard none) _ rest).1 = _
      rw [show cycleDedupDiscard none = none from rfl, ih]

theorem dedupScan_nil (recs : List CycleRec) : dedupScan [] recs = recs := by
  induction recs with
  | nil => rfl
  | cons rec rest ih =>
    rw [dedupScan]
    cases rec.key with
    | none => rw [ih]
    | some k => simp [ih]

theorem cycleIterate_processed (ds : List String) (hwmEnd : Option JSDate)
    (recs : List CycleRec) :
    (cycleIterate (some ds) hwmEnd recs).1 = dedupScan ds recs := by
  induction recs generalizing ds hwmEnd with
  | nil => rfl
  | cons rec rest ih =>
    rw [cycleIterate, dedupScan]
    cases hkey : rec.key with
    | none =>
      rw [show cycleSkip (some ds) none = false from rfl]
      rw [if_neg Bool.false_ne_true]
      show (if rec.ok then _ else _ : List CycleRec × Option JSDate).1 = _
      have hdisc : cycleDedupDiscard (some ds) = if ds.isEmpty then none else some ds := rfl
      by_cases hok : rec.ok = true
      · rw [if_pos hok]
        show rec :: (cycleIterate (cycleDedupDiscard (some ds)) _ rest).1 = _
        rw [hdisc]
        by_cases hemp : ds.isEmpty = true
        · rw [if_pos hemp, cycleIterate_none_processed,
            List.isEmpty_iff.mp hemp, dedupScan_nil]
        · rw [if_neg hemp, ih]
      · rw [if_neg hok]
        show rec :: (cycleIterate (cycleDedupDiscard (some ds)) _ rest).1 = _
        rw [hdisc]
        by_cases hemp : ds.isEmpty = true
        · rw [if_pos hemp, cycleIterate_none_processed,
            List.isEmpty_iff.mp hemp, dedupScan_nil]
        · rw [if_neg hemp, ih]
    | some k =>
      have hskip : cycleSkip (some ds) (some k) = (truthyStr k && ds.contains k) := rfl
      by_cases hsk : (truthyStr k && ds.contains k) = true
      · rw [if_pos (by rw [hskip]; exact hsk)]
        show _ = (if (truthyStr k && ds.contains k) = true then
          dedupScan (ds.erase k) rest else rec :: dedupScan ds rest)
        rw [if_pos hsk]
        show (cycleIterate (cycleDedupErase (some ds) (some k)) hwmEnd rest).1 = _
        rw [show cycleDedupErase (some ds) (some k) = some (ds.erase k) from rfl, ih]
      · rw [if_neg (by rw [hskip]; exact hsk)]
        show _ = (if (truthyStr k && ds.contains k) = true then
          dedupScan (ds.erase k) rest else rec :: dedupScan ds rest)
        rw [if_neg hsk]
        show (if rec.ok then _ else _ : List CycleRec × Option JSDate).1 = _
        have hdisc : cycleDedupDiscard (some ds) = if ds.isEmpty then none else some ds := rfl
        by_cases hok : rec.ok = true
        · rw [if_pos hok]
          show rec :: (cycleIterate (cycleDedupDiscard (some ds)) _ rest).1 = _
          rw [hdisc]
          by_cases hemp : ds.isEmpty = true
          · rw [if_pos hemp, cycleIterate_none_processed,
              List.isEmpty_iff.mp hemp, dedupScan_nil]
          · rw [if_neg hemp, ih]
        · rw [if_neg hok]
          show rec :: (cycleIterate (cycleDedupDiscard (some ds)) _ rest).1 = _
          rw [hdisc]
          by_cases hemp : ds.isEmpty = true
          · rw [if_pos hemp, cycleIterate_none_processed,
              List.isEmpty_iff.mp hemp, dedupScan_nil]
          · rw [if_neg hemp, ih]

theorem cycleIterate_cons_skip (dedup : Option (List String))
    (hwmEnd : Option JSDate) (rec : CycleRec) (rest : List CycleRec)
    (h : cycleSkip dedup rec.key = true) :
    cycleIterate dedup hwmEnd (rec :: rest) =
      cycleIterate (cycleDedupErase dedup rec.key) hwmEnd rest := by
  rw [cycleIterate, if_pos h]

theorem cycleIterate_cons_ok (dedup : Option (List String))
    (hwmEnd : Option JSDate) (rec : CycleRec) (rest : List CycleRec)
    (h : cycleSkip dedup rec.key = false) (hok : rec.ok = true) :
    cycleIterate dedup hwmEnd (rec :: rest) =
      (rec :: (cycleIterate (cycleDedupDiscard dedup)
          (cycleHwmStep hwmEnd rec.modTs) rest).1,
        (cycleIterate (cycleDedupDiscard dedup)
          (cycleHwmStep hwmEnd rec.modTs) rest).2) := by
  rw [cycleIterate, if_neg (by rw [h]; exact Bool.false_ne_true)]
  simp [hok]

theorem cycleIterate_cons_err (dedup : Option (List String))
    (hwmEnd : Option JSDate) (rec : CycleRec) (rest : List CycleRec)
    (h : cycleSkip dedup rec.key = false) (hok : rec.ok = false) :
    cycleIterate dedup hwmEnd (rec :: rest) =
      (rec :: (cycleIterate (cycleDedupDiscard dedup) hwmEnd rest).1,
        (cycleIterate (cycleDedupDiscard dedup) hwmEnd rest).2) := by
  rw [cycleIterate, if_neg (by rw [h]; exact Bool.false_ne_true)]
  simp [hok]

theorem maxSeenModTs_cons (rec : CycleRec) (rest : List CycleRec) :
    maxSeenModTs (rec :: rest) =
      optMax (rec.modTs.bind parseIsoDate) (maxSeenModTs rest) := by
  rw [maxSeenModTs]
  cases rec.modTs.bind parseIsoDate with
  | none => rfl
  | some t =>
    cases maxSeenModTs rest with
    | none => rfl
    | some m => rfl

theorem cycleHwmStep_valid (a : Option Nat) (modTs : Option String)
    (hv : ∀ s, modTs = some s → truthyStr s = true ∧ ∃ t, parseIsoDate s = some t) :
    cycleHwmStep (a.map some) modTs =
      (optMax a (modTs.bind parseIsoDate)).map some := by
  cases modTs with
  | none => cases a <;> rfl
  | some s =>
    obtain ⟨hts, t, hpt⟩ := hv s rfl
    unfold cycleHwmStep
    show (if truthyStr s = true then
        (if (match a.map some with
             | none => true
             | some d => jsGt (parseIsoDate s) d) = true then
          some (parseIsoDate s)
        else a.map some)
      else a.map some) = (optMax a ((some s).bind parseIsoDate)).map some
    rw [if_pos hts]
    cases a with
    | none => simp [hpt, optMax]
    | some x =>
      show (if jsGt (parseIsoDate s) (some x) = true then
        some (parseIsoDate s) else some (some x)) = _
      rw [hpt]
      by_cases hlt : x < t
      · rw [if_pos (by simp [jsGt, hlt])]
        simp [optMax, hpt, Nat.max_eq_right (Nat.le_of_lt hlt)]
      · rw [if_neg (by simp [jsGt, hlt])]
        simp [optMax, hpt, Nat.max_eq_left (Nat.le_of_not_lt hlt)]

theorem dedupScan_discard (ds : List String) (rest : List CycleRec) :
    dedupScan ds rest = processedOf (cycleDedupDiscard (some ds)) rest := by
  by_cases hemp : ds.isEmpty = true
  · have h1 : cycleDedupDiscard (some ds) = none := by
      show (if ds.isEmpty then none else some ds) = none
      rw [if_pos hemp]
    rw [h1, List.isEmpty_iff.mp hemp]
    exact dedupScan_nil rest
  · have h1 : cycleDedupDiscard (some ds) = some ds := by
      show (if ds.isEmpty then none else some ds) = some ds
      rw [if_neg hemp]
    rw [h1]
    rfl

theorem cycleIterate_hwm (recs : List CycleRec) :
    ∀ (dedup : Option (List String)) (a : Option Nat),
    (∀ r ∈ recs, ∀ s, r.modTs = some s →
      truthyStr s = true ∧ ∃ t, parseIsoDate s = some t) →
    (cycleIterate dedup (a.map some) recs).2 =
      (optMax a (maxSeenModTs
        ((processedOf dedup recs).filter (fun r => r.ok)))).map some := by
  induction recs with
  | nil =>
    intro dedup a _
    have h1 : processedOf dedup [] = [] := by cases dedup <;> rfl
    rw [h1]
    cases a <;> rfl
  | cons rec rest ih =>
    intro dedup a hv
    have hvrec : ∀ s, rec.modTs = some s →
        truthyStr s = true ∧ ∃ t, parseIsoDate s = some t :=
      fun s hs => hv rec (List.mem_cons_self _ _) s hs
    have hvrest : ∀ r ∈ rest, ∀ s, r.modTs = some s →
        truthyStr s = true ∧ ∃ t, parseIsoDate s = some t :=
      fun r hr s hs => hv r (List.mem_cons_of_mem _ hr) s hs
    by_cases hsk : cycleSkip dedup rec.key = true
    · rw [cycleIterate_cons_skip dedup _ rec rest hsk]
      have hproc : processedOf dedup (rec :: rest) =
          processedOf (cycleDedupErase dedup rec.key) rest := by
        cases hd : dedup with
        | none =>
          rw [hd] at hsk
          rw [cycleSkip_none] at hsk
          exact absurd hsk Bool.false_ne_true
        | some ds =>
          cases hk : rec.key with
          | none =>
            rw [hd, hk] at hsk
            exact absurd hsk Bool.false_ne_true
          | some k =>
            rw [hd, hk] at hsk
            have hsk2 : (truthyStr k && ds.contains k) = true := hsk
            show dedupScan ds (rec :: rest) =
              processedOf (cycleDedupErase (some ds) (some k)) rest
            rw [dedupScan, hk]
            show (if (truthyStr k && ds.contains k) = true then
                dedupScan (ds.erase k) rest
              else rec :: dedupScan ds rest) = _
            rw [if_pos hsk2]
            rfl
      rw [hproc]
      exact ih (cycleDedupErase dedup rec.key) a hvrest
    · have hsk' : cycleSkip dedup rec.key = false := Bool.eq_false_iff.mpr hsk
      have hproc : processedOf dedup (rec :: rest) =
          rec :: processedOf (cycleDedupDiscard dedup) rest := by
        cases hd : dedup with
        | none => rfl
        | some ds =>
          show dedupScan ds (rec :: rest) =
            rec :: processedOf (cycleDedupDiscard (some ds)) rest
          rw [dedupScan]
          cases hk : rec.key with
          | none =>
            show rec :: dedupScan ds rest = _
            rw [dedupScan_discard]
          | some k =>
            rw [hd, hk] at hsk'
            have hsk2 : (truthyStr k && ds.contains k) = false := hsk'
            show (if (truthyStr k && ds.contains k) = true then
                dedupScan (ds.erase k) rest
              else rec :: dedupScan ds rest) = _
            rw [if_neg (by rw [hsk2]; exact Bool.false_ne_true)]
            show rec :: dedupScan ds rest = _
            rw [dedupScan_discard]
      by_cases hok : rec.ok = true
      · rw [cycleIterate_cons_ok dedup _ rec rest hsk' hok]
        show (cycleIterate (cycleDedupDiscard dedup)
          (cycleHwmStep (a.map some) rec.modTs) rest).2 = _
        rw [cycleHwmStep_valid a rec.modTs hvrec]
        rw [ih (cycleDedupDiscard dedup) (optMax a (rec.modTs.bind parseIsoDate)) hvrest]
        rw [hproc, List.filter_cons, if_pos (by rw [hok]), maxSeenModTs_cons,
          optMax_assoc]
      · have hok' : rec.ok = false := Bool.eq_false_iff.mpr hok
        rw [cycleIterate_cons_err dedup _ rec rest hsk' hok']
        show (cycleIterate (cycleDedupDiscard dedup) (a.map some) rest).2 = _
        rw [ih (cycleDedupDiscard dedup) a hvrest]
        rw [hproc, List.filter_cons, if_neg (by rw [hok']; exact Bool.false_ne_true)]

/-- Claim C4 counterexample: a replication cycle that sees no records (the
page iterator yields nothing) finalizes with `hwmEnd = hwmStart` — non-null
— although no record was seen, so `hwmEnd` does not equal the greatest
ModificationTimestamp among the records the cycle saw (there is none). -/
theorem claim_C4_counterexample :
    (cycleIterate none (some (some 1000)) []).2 = some (some 1000) ∧
    maxSeenModTs ([] : List CycleRec) = none := by
  decide

/-- Claim C4 amended: `hwmEnd` is seeded with `hwmStart` (line 82) and
advanced only by records that are not dedup-skipped and whose processing
succeeds; at finalization it equals the maximum of `hwmStart` and the
ModificationTimestamps of those records.  In particular a cycle that saw
no records finalizes with `hwmEnd = hwmStart`, and a cycle with no dedup
set, no per-record failures and well-formed timestamps, whose greatest
observed ModificationTimestamp is at least `hwmStart`, finalizes with
`hwmEnd` equal to that greatest observed timestamp. -/
theorem claim_C4_amended (dedup : Option (List String)) (hwmStart : Option Nat)
    (recs : List CycleRec)
    (hv : ∀ r ∈ recs, ∀ s, r.modTs = some s →
      truthyStr s = true ∧ ∃ t, parseIsoDate s = some t) :
    (cycleIterate dedup (hwmStart.map some) recs).2 =
      (optMax hwmStart (maxSeenModTs
        ((processedOf dedup recs).filter (fun r => r.ok)))).map some ∧
    (recs = [] →
      (cycleIterate dedup (hwmStart.map some) recs).2 = hwmStart.map some) ∧
    (∀ m, dedup = none → (∀ r ∈ recs, r.ok = true) →
      maxSeenModTs recs = some m →
      (∀ h, hwmStart = some h → h ≤ m) →
      (cycleIterate dedup (hwmStart.map some) recs).2 = some (some m)) := by
  refine ⟨cycleIterate_hwm recs dedup hwmStart hv, ?_, ?_⟩
  · intro h
    subst h
    rfl
  · intro m hded hok hmax hle
    subst hded
    rw [cycleIterate_hwm recs none hwmStart hv]
    have hfil : (processedOf none recs).filter (fun r => r.ok) = recs := by
      show recs.filter (fun r => r.ok) = recs
      exact List.filter_eq_self.mpr (fun a ha => hok a ha)
    rw [hfil, hmax]
    cases hwmStart with
    | none => rfl
    | some h => simp [optMax, Nat.max_eq_right (hle h rfl)]

/-- Claim C5: the dedup set holds exactly the keys whose STORED
`modificationTs` equals the HWM; the page loop hands to the processors
exactly the records that survive the dedup scan — the first occurrence of
each key in the set is skipped (the key being removed as it is used),
everything else is processed normally, and the emptied set is transparent;
consequently, resuming with `ge` on two siblings sharing the HWM of which
one is committed (in the set) processes the other and not the committed
one. -/
theorem claim_C5_resume (ds : List String) (hwmEnd : Option JSDate)
    (recs : List CycleRec) (props : List PropertyRow) (hwm : Nat) (k : String)
    (recA recB : CycleRec) (a b : String) :
    (cycleIterate (some ds) hwmEnd recs).1 = dedupScan ds recs ∧
    (k ∈ buildDedupSet props hwm ↔
      ∃ p ∈ props, p.listingKey = k ∧ p.modificationTs = some hwm) ∧
    (recA.key = some a → truthyStr a = true → ds.contains a = true →
      recB.key = some b → (ds.erase a).contains b = false →
      (cycleIterate (some ds) hwmEnd [recA, recB]).1 = [recB]) := by
  refine ⟨cycleIterate_processed ds hwmEnd recs, ?_, ?_⟩
  · simp only [buildDedupSet, List.mem_dedup, List.mem_map, List.mem_filter]
    constructor
    · rintro ⟨p, ⟨hp, hts⟩, hk⟩
      exact ⟨p, hp, hk, by simpa using hts⟩
    · rintro ⟨p, hp, hk, hts⟩
      exact ⟨p, ⟨hp, by simpa using hts⟩, hk⟩
  · intro hA hta hca hB hcb
    rw [cycleIterate_processed]
    rw [dedupScan, hA]
    show (if (truthyStr a && ds.contains a) = true then
        dedupScan (ds.erase a) [recB]
      else recA :: dedupScan ds [recB]) = [recB]
    rw [if_pos (by rw [hta, hca]; rfl)]
    rw [dedupScan, hB]
    show (if (truthyStr b && (ds.erase a).contains b) = true then
        dedupScan ((ds.erase a).erase b) []
      else recB :: dedupScan (ds.erase a) []) = [recB]
    rw [if_neg (by rw [hcb, Bool.and_false]; exact Bool.false_ne_true)]
    rfl

/-- Witness for claim C5 at the boundary scenario: dedup set `{A}`, page
`[A, B]`, both records carrying the HWM timestamp — A is skipped once, B
is processed. -/
theorem claim_C5_witness :
    (cycleIterate (some ["A"]) (some (some 1704164645000))
      [c5RecA, c5RecB]).1 = [c5RecB] :=
  (claim_C5_resume ["A"] (some (some 1704164645000)) [] [] 0 ""
    c5RecA c5RecB "A" "B").2.2 rfl (by decide) (by decide) rfl (by decide)

/-- Witness for claim C4 amended: one successfully processed record beyond
the start HWM advances `hwmEnd` to its timestamp. -/
theorem claim_C4_witness :
    (cycleIterate none (some (some 1000)) [c5RecA]).2 =
      some (some 1704164645000) :=
  (claim_C4_amended none (some 1000) [c5RecA]
    (by
      intro r hr s hs
      rw [List.mem_singleton] at hr
      subst hr
      have hs' : s = "2024-01-02T03:04:05.000Z" := by
        have : some "2024-01-02T03:04:05.000Z" = some s := hs
        exact (Option.some.inj this).symm
      subst hs'
      exact ⟨by decide, 1704164645000, by decide⟩)).2.2
    1704164645000 rfl (by decide) (by decide)
    (by
      intro h hh
      cases hh
      decide)

/-- Claim C9: the failing input evaluated.  A row with key `OH1` already
exists, the incoming record updates it (the upsert takes the
conflict-update path), yet the returned stats report `inserted = 1` and
`updated = 0` — the processor classifies an update as an insert, exactly
the miscount the spec flags as a bug. -/
theorem claim_C9_openhouse_stats :
    ([c9Existing].any (fun r => r.openHouseKey == "OH1")) = true ∧
    (processOpenHouseRecord c9Raw false 7 [c9Existing]).2.inserted = 1 ∧
    (processOpenHouseRecord c9Raw false 7 [c9Existing]).2.updated = 0 ∧
    (processOpenHouseRecord c9Raw false 7 [c9Existing]).1 ≠ [c9Existing] := by
  decide
